import Mathlib

/-!
Verification development for the `lmr` report tool (Rust sources under `src/`).

The Rust modules are shallowly embedded as executable Lean definitions:
pure functions become Lean functions, `Result<T, String>` becomes
`Except String T`, stateful drivers become explicit state passing, and the
external database / chart libraries are modelled as explicit parameters
(prepared-statement values, rendering callbacks).  Rust `f64`/`f32` values
are modelled as rationals (`Rat`): no claim below depends on binary
floating-point rounding, only on values being moved around, compared and
rendered, and every concrete value used has an exact decimal form.
-/

namespace Lmr

/-- Left-pad the decimal form of `n` to two digits (chrono's `%H`/`%M`/`%S`
and `%m`/`%d` rendering). -/
def pad2 (n : Nat) : String :=
  if n < 10 then "0" ++ toString n else toString n

/-- Left-pad the decimal form of `n` to four digits (chrono's `%Y` rendering
for the non-negative years produced by this program's parsers). -/
def pad4 (n : Nat) : String :=
  if n < 10 then "000" ++ toString n
  else if n < 100 then "00" ++ toString n
  else if n < 1000 then "0" ++ toString n
  else toString n

/-- chrono `NaiveTime`, restricted to whole seconds: the program only builds
times via `%H:%M:%S` parsing or backend `time` columns rendered to whole
seconds in every claim considered here. -/
structure NaiveTime where
  hour : Nat
  minute : Nat
  second : Nat
deriving DecidableEq, Repr

/-- chrono `Display` for `NaiveTime`: `HH:MM:SS`. -/
def NaiveTime.to_string (t : NaiveTime) : String :=
  pad2 t.hour ++ ":" ++ pad2 t.minute ++ ":" ++ pad2 t.second

/-- chrono `NaiveDate` (non-negative years, as produced by `%Y-%m-%d`). -/
structure NaiveDate where
  year : Nat
  month : Nat
  day : Nat
deriving DecidableEq, Repr

/-- chrono `Display` for `NaiveDate`: `YYYY-MM-DD`. -/
def NaiveDate.to_string (d : NaiveDate) : String :=
  pad4 d.year ++ "-" ++ pad2 d.month ++ "-" ++ pad2 d.day

/-- chrono `DateTime<FixedOffset>`: a calendar date, a time of day and a
fixed offset in minutes. -/
structure FixedDateTime where
  date : NaiveDate
  time : NaiveTime
  offsetMinutes : Int
deriving DecidableEq, Repr

/-- chrono `Display` for a fixed offset: `+HH:MM` or `-HH:MM`. -/
def offsetToString (m : Int) : String :=
  let sign := if m < 0 then "-" else "+"
  let a := m.natAbs
  sign ++ pad2 (a / 60) ++ ":" ++ pad2 (a % 60)

/-- chrono `Display` for `DateTime<FixedOffset>`:
`YYYY-MM-DD HH:MM:SS +HH:MM`. -/
def FixedDateTime.to_string (dt : FixedDateTime) : String :=
  dt.date.to_string ++ " " ++ dt.time.to_string ++ " " ++ offsetToString dt.offsetMinutes

/-- Fractional decimal digits of `num / den` (with `num < den`), stopping at
a zero remainder; `fuel` bounds the recursion. -/
def decimalDigits (num den : Nat) : Nat → String
  | 0 => ""
  | fuel + 1 =>
    if num = 0 then ""
    else toString (num * 10 / den) ++ decimalDigits (num * 10 % den) den fuel

/-- Decimal rendering of a rational: the model of Rust's locale-independent
`f64`/`f32` `Display` for the exact-decimal values handled here. -/
def ratToString (q : Rat) : String :=
  let sign := if q < 0 then "-" else ""
  let n := q.num.natAbs
  let ip := n / q.den
  let fp := n % q.den
  if fp = 0 then sign ++ toString ip
  else sign ++ toString ip ++ "." ++ decimalDigits fp q.den 64

/-- `value.rs`: `FieldType`, how a column's raw value must be decoded. -/
inductive FieldType where
  | string
  | integer
  | float
  | time
  | date
  | dateTime
deriving DecidableEq, Repr

/-- `value.rs`: `Field`, a configured column descriptor. -/
structure Field where
  field : String
  title : String
  kind : FieldType
deriving DecidableEq, Repr

/-- `value.rs`: `TypedValue`, the decoded type-tagged scalar cell value. -/
inductive TypedValue where
  | string (s : String)
  | integer (i : Int)
  | float (q : Rat)
  | time (t : NaiveTime)
  | date (d : NaiveDate)
  | dateTime (dt : FixedDateTime)
deriving DecidableEq, Repr

/-- `value.rs` `impl ToString for TypedValue`: each variant delegates to the
wrapped value's `Display`. -/
def TypedValue.to_string : TypedValue → String
  | .string s => s
  | .integer i => toString i
  | .float q => ratToString q
  | .time t => t.to_string
  | .date d => d.to_string
  | .dateTime dt => dt.to_string

/-- Modelled from the spec: `TypedValue::to_float` is called by
`charts.rs` (`get_value_by`) but its definition is not among the sources;
the spec only states chart values are "coerced to a float", so the numeric
variants convert exactly and the non-numeric variants fail. -/
def TypedValue.to_float : TypedValue → Except String Rat
  | .integer i => .ok (i : Rat)
  | .float q => .ok q
  | _ => .error "Unsupported float conversion"

/-- `value.rs`: `Value`, one decoded cell (`inner = none` is SQL NULL). -/
structure Value where
  inner : Option TypedValue
  field : Field
deriving DecidableEq, Repr

/-- `source/mod.rs`: `Query`. -/
structure Query where
  sql : String
  title : String
  fields : List Field
deriving DecidableEq, Repr

/-- `presentation/formats.rs`: `OutputFormat`. -/
inductive OutputFormat where
  | plain
  | html
  | markdown
deriving DecidableEq, Repr

/-- `formats.rs` `title1`. -/
def OutputFormat.title1 : OutputFormat → String → String
  | .plain, t => "\n" ++ t ++ "\n\n"
  | .html, t => "<h1>" ++ t ++ "</h1>\n"
  | .markdown, t => "\n# " ++ t ++ "\n\n"

/-- `formats.rs` `title2`. -/
def OutputFormat.title2 : OutputFormat → String → String
  | .plain, t => t ++ "\n\n"
  | .html, t => "<h3>" ++ t ++ "</h3>\n"
  | .markdown, t => "## " ++ t ++ "\n\n"

/-- `formats.rs` `simple`. -/
def OutputFormat.simple : OutputFormat → String → String
  | .plain, c => c ++ "\n"
  | .html, c => c ++ "\n"
  | .markdown, c => c ++ "\n"

/-- `formats.rs` `break_line`. -/
def OutputFormat.break_line : OutputFormat → String
  | .plain => "\n"
  | .html => "<br>\n"
  | .markdown => "\n"

/-- Modelled from the spec: `OutputFormat::body` is called by
`presentation/mod.rs` (`present_as`) but is not among the sources; the spec
says "Wrap the full body per format (e.g., HTML body envelope)", so the
text formats are left unwrapped and HTML gets a body envelope. -/
def OutputFormat.body : OutputFormat → String → String
  | .plain, r => r
  | .markdown, r => r
  | .html, r => "<html><body>" ++ r ++ "</body></html>"

/-- `presentation/mod.rs`: `ImagePresented` (raw bytes as a list of byte
values). -/
structure ImagePresented where
  cid : String
  mime : String
  data : List Nat
deriving DecidableEq, Repr

/-- `presentation/mod.rs`: `RenderedContent`. -/
structure RenderedContent where
  content : String
  images : List ImagePresented
deriving DecidableEq, Repr

/-- `presentation/mod.rs`: `DataPresented`. -/
structure DataPresented where
  is_html : Bool
  content : String
  images : List ImagePresented
deriving DecidableEq, Repr

/-- `presentation/mod.rs`: the `Component` trait, as the type of its single
method `render`. -/
def Component : Type :=
  Query → List (List Value) → OutputFormat → Except String RenderedContent

/-- `presentation/table.rs` (and `present_query_as` callers): the cell text
of one `Value` — `inner.unwrap_or(TypedValue::String(String::new())).to_string()`. -/
def cell_text (v : Value) : String :=
  (v.inner.getD (TypedValue.string "")).to_string

/-- `presentation/mod.rs` `present_query_as`: one report section for one
query's fetch result (the level-2 heading is pushed first in every case).
Note the source emits the literal text `"Query falied: "` (sic) on a
fetch error. -/
def present_query_as (query : Query) (component : Component)
    (data : Except String (List (List Value))) (format : OutputFormat) :
    Except String RenderedContent :=
  match data with
  | .ok rows =>
    if rows.length > 0 then
      match component query rows format with
      | .ok table =>
        .ok { content := format.title2 ("Query: " ++ query.title) ++ format.simple table.content,
              images := table.images }
      | .error e =>
        .ok { content := format.title2 ("Query: " ++ query.title) ++
                format.simple ("Error on rendering: " ++ e),
              images := [] }
    else
      .ok { content := format.title2 ("Query: " ++ query.title) ++ format.simple "Empty result",
            images := [] }
  | .error e =>
    .ok { content := format.title2 ("Query: " ++ query.title) ++
            format.simple ("Query falied: " ++ e),
          images := [] }

/-- The loop body of `present_as`: accumulated section text and images for
the listed entries, in order. -/
def presentLoop (format : OutputFormat) :
    List (Query × Component × Except String (List (List Value))) →
    Except String (String × List ImagePresented)
  | [] => .ok ("", [])
  | (query, comp, result) :: rest =>
    match present_query_as query comp result format with
    | .error e => .error e
    | .ok rquery =>
      match presentLoop format rest with
      | .error e => .error e
      | .ok (s, imgs) =>
        .ok (format.break_line ++ rquery.content ++ format.break_line ++ format.break_line ++ s,
             rquery.images ++ imgs)

/-- `presentation/mod.rs` `present_as`: assemble the whole report. -/
def present_as (data : List (Query × Component × Except String (List (List Value))))
    (title : String) (format : OutputFormat) : Except String DataPresented :=
  match presentLoop format data with
  | .error e => .error e
  | .ok (s, images) =>
    let r := format.title1 ("The " ++ title ++ " results are here!") ++ s ++
      format.simple "Consider support the project at https://github.com/fernandobatels/lmr"
    .ok { is_html := format = OutputFormat.html, content := format.body r, images := images }

/-! ## Charts (`presentation/charts.rs`) -/

/-- `charts.rs`: `ChartType` (the source names the pie variant `Pizza`). -/
inductive ChartType where
  | bar
  | line
  | pizza
deriving DecidableEq, Repr

/-- `charts.rs`: `ChartSeriesBy`. -/
structure ChartSeriesBy where
  key : String
  values : String
deriving DecidableEq, Repr

/-- `charts.rs`: `ChartComponent` configuration. -/
structure ChartComponent where
  kind : ChartType
  keys_by : Option String
  series_by : Option ChartSeriesBy
  series : Option (List String)
deriving DecidableEq, Repr

/-- `charts_rs::Series`: a named value vector. -/
structure Series where
  name : String
  data : List Rat
deriving DecidableEq, Repr

/-- `charts.rs` `get_key_by`: the textual key of `row`'s cell for the field
named `name`; an absent (SQL NULL) cell yields the empty string. -/
def get_key_by (name : String) (row : List Value) : Except String String :=
  match row.find? (fun v => v.field.field = name) with
  | none => .error ("Field " ++ name ++ " not found")
  | some col =>
    match col.inner with
    | some v => .ok v.to_string
    | none => .ok ""

/-- `charts.rs` `get_value_by`: the float value of `row`'s cell for the
field named `name`; an absent (SQL NULL) cell yields `0.0`. -/
def get_value_by (name : String) (row : List Value) : Except String Rat :=
  match row.find? (fun v => v.field.field = name) with
  | none => .error ("Field " ++ name ++ " not found")
  | some col =>
    match col.inner with
    | some v => v.to_float
    | none => .ok 0

/-- The first pass of the explicit-series branch: one field's value for
every row, preserving row order. -/
def seriesValues (name : String) : List (List Value) → Except String (List Rat)
  | [] => .ok []
  | row :: rest =>
    match get_value_by name row with
    | .error e => .error e
    | .ok v =>
      match seriesValues name rest with
      | .error e => .error e
      | .ok vs => .ok (v :: vs)

/-- The explicit-series branch of `prepare_series`: one `Series` per named
field, named by the field's display title. -/
def explicitSeries (query : Query) (data : List (List Value)) :
    List String → Except String (List Series)
  | [] => .ok []
  | serie :: rest =>
    match query.fields.find? (fun f => f.field = serie) with
    | none => .error ("Field " ++ serie ++ " not found")
    | some col =>
      match seriesValues col.field data with
      | .error e => .error e
      | .ok values =>
        match explicitSeries query data rest with
        | .error e => .error e
        | .ok ss => .ok (Series.mk col.title values :: ss)

/-- The `contains`/`push` accumulation loop shared (textually) by the
`prepare_keys` key loop and the grouped branch's `dseries` loop: distinct
decoded values of the given field across rows, in first-occurrence order. -/
def collectKeys (name : String) (acc : List String) :
    List (List Value) → Except String (List String)
  | [] => .ok acc
  | row :: rest =>
    match get_key_by name row with
    | .error e => .error e
    | .ok v => collectKeys name (if v ∈ acc then acc else acc ++ [v]) rest

/-- Index of the first list element satisfying `p` (the position
`values.iter_mut().find(..)` mutates in the source). -/
def firstIdx (p : α → Bool) : List α → Option Nat
  | [] => none
  | a :: l =>
    match p a with
    | true => some 0
    | false => (firstIdx p l).map (fun i => i + 1)

/-- One pass of the grouped branch's overwrite loop over an association
list of `(key, value)` pairs: for each row whose `series_by.key` equals
`serie`, overwrite the first pair whose key matches the row's `keys_by`
value; rows whose key is absent from the pair list are ignored. -/
def overwritePairs (sb : ChartSeriesBy) (kb : String) (serie : String) :
    List (List Value) → List (String × Rat) → Except String (List (String × Rat))
  | [], pairs => .ok pairs
  | row :: rest, pairs =>
    match get_key_by sb.key row with
    | .error e => .error e
    | .ok serieKey =>
      if serieKey = serie then
        match get_value_by sb.values row with
        | .error e => .error e
        | .ok value =>
          match get_key_by kb row with
          | .error e => .error e
          | .ok key =>
            match firstIdx (fun p => p.1 = key) pairs with
            | some i => overwritePairs sb kb serie rest (pairs.set i (key, value))
            | none => overwritePairs sb kb serie rest pairs
      else
        overwritePairs sb kb serie rest pairs

/-- The grouped branch's per-series pass: zero-filled pairs aligned with
`keys`, overwritten row by row, then stripped to the value vector. -/
def groupedSeries (sb : ChartSeriesBy) (kb : String) (keys : List String)
    (data : List (List Value)) : List String → Except String (List Series)
  | [] => .ok []
  | serie :: rest =>
    match overwritePairs sb kb serie data (keys.map (fun k => (k, 0))) with
    | .error e => .error e
    | .ok pairs =>
      match groupedSeries sb kb keys data rest with
      | .error e => .error e
      | .ok ss => .ok (Series.mk serie (pairs.map (fun p => p.2)) :: ss)

/-- The `if let Some(dseries) = &self.series` block of `prepare_series`:
absent configuration contributes no series. -/
def explicitPart (series : Option (List String)) (query : Query)
    (data : List (List Value)) : Except String (List Series) :=
  match series with
  | some dseries => explicitSeries query data dseries
  | none => .ok []

/-- The `if let Some(series_by) = self.series_by.clone()` block of
`prepare_series`: absent configuration contributes no series; a present
one requires `keys_by`, then derives the group names and their vectors. -/
def groupedPart (series_by : Option ChartSeriesBy) (keys_by : Option String)
    (keys : List String) (data : List (List Value)) : Except String (List Series) :=
  match series_by with
  | none => .ok []
  | some sb =>
    match keys_by with
    | none => .error "Keys must be defined"
    | some kb =>
      match collectKeys sb.key [] data with
      | .error e => .error e
      | .ok dseries => groupedSeries sb kb keys data dseries

/-- `charts.rs` `ChartComponent::prepare_series`: the guard, then the
explicit-series block, then the grouped block, appending into one vector. -/
def ChartComponent.prepare_series (c : ChartComponent) (query : Query)
    (keys : List String) (data : List (List Value)) : Except String (List Series) :=
  if c.series = none ∧ c.series_by = none then
    .error "Series must be defined"
  else
    match explicitPart c.series query data with
    | .error e => .error e
    | .ok s1 =>
      match groupedPart c.series_by c.keys_by keys data with
      | .error e => .error e
      | .ok s2 => .ok (s1 ++ s2)

/-- `charts.rs` `ChartComponent::prepare_keys`. -/
def ChartComponent.prepare_keys (c : ChartComponent) (_query : Query)
    (data : List (List Value)) : Except String (List String) :=
  if c.keys_by = none ∧ c.kind ≠ ChartType.pizza then
    .error "Keys must be defined"
  else
    match c.keys_by with
    | some name => collectKeys name [] data
    | none => .ok []

/-- The external collaborators of `ChartComponent::render`: the
`charts_rs` SVG builder, the SVG-to-PNG converter and the freshly drawn
UUID — all outside the core, supplied as explicit inputs. -/
structure ChartExternals where
  svg : ChartType → List Series → List String → Except String String
  png : String → Except String (List Nat)
  freshCid : String

/-- `charts.rs` `impl Component for ChartComponent`: `render`. -/
def ChartComponent.render (c : ChartComponent) (ext : ChartExternals)
    (query : Query) (data : List (List Value)) (format : OutputFormat) :
    Except String RenderedContent :=
  if format ≠ OutputFormat.html then
    .error "Output format without chart support"
  else
    match c.prepare_keys query data with
    | .error e => .error e
    | .ok keys =>
      match c.prepare_series query keys data with
      | .error e => .error e
      | .ok series =>
        match (ext.svg c.kind series keys).mapError
            (fun e => "Error generating chart: " ++ e) with
        | .error e => .error e
        | .ok svg =>
          match (ext.png svg).mapError
              (fun e => "Error converting SVG to PNG: " ++ e) with
          | .error e => .error e
          | .ok png =>
            let cid := ext.freshCid
            .ok { content := "<img class=\"lmr-img\" title=\"" ++ query.title ++
                    "\" src=\"cid:" ++ cid ++ "\">",
                  images := [{ cid := cid, mime := "image/png", data := png }] }

/-! ## Sqlite driver (`source/sqlite.rs`)

The `sqlite` crate's connection and prepared statement are modelled as
explicit values: a statement exposes the column names of the prepared
query and the raw storage-class cells of each result row.  The crate's
column accessors coerce mismatched storage classes (SQLite column-access
semantics); the coercions are modelled below but no claim depends on them
— claims only exercise NULL cells, matching cells and missing columns. -/

/-- A raw SQLite cell, by storage class. -/
inductive SqliteRaw where
  | null
  | int (i : Int)
  | real (q : Rat)
  | text (s : String)
  | blob (b : List Nat)
deriving DecidableEq, Repr

/-- A prepared SQLite statement: reported column names and the raw rows
the cursor will yield, positionally aligned with `cols`. -/
structure SqliteStmt where
  cols : List String
  rows : List (List SqliteRaw)
deriving Repr

/-- A live SQLite connection: `prepare` models `Connection::prepare`. -/
structure SqliteConn where
  prepare : String → Except String SqliteStmt

/-- Leading decimal-integer prefix of a string (SQLite's text-to-integer
coercion, not exercised by any claim). -/
def parseIntPrefix (s : String) : Int :=
  let (sign, digits) :=
    match s.data with
    | '-' :: rest => ((-1 : Int), rest)
    | l => ((1 : Int), l)
  let n := (digits.takeWhile Char.isDigit).foldl
    (fun acc c => acc * 10 + (c.toNat - '0'.toNat)) 0
  sign * n

/-- Truncation of a rational toward zero (SQLite's real-to-integer
coercion, not exercised by any claim). -/
def ratTrunc (q : Rat) : Int :=
  if q < 0 then -((-q).floor.toNat : Int) else (q.floor.toNat : Int)

/-- `statement.read::<Option<i64>, _>`: `none` on NULL, otherwise the cell
coerced to an integer. -/
def sqlite_read_int : SqliteRaw → Option Int
  | .null => none
  | .int i => some i
  | .real q => some (ratTrunc q)
  | .text s => some (parseIntPrefix s)
  | .blob _ => some 0

/-- `statement.read::<Option<f64>, _>`: `none` on NULL, otherwise the cell
coerced to a float (text/blob coercions modelled coarsely, unexercised). -/
def sqlite_read_float : SqliteRaw → Option Rat
  | .null => none
  | .int i => some (i : Rat)
  | .real q => some q
  | .text s => some ((parseIntPrefix s : Int) : Rat)
  | .blob _ => some 0

/-- `statement.read::<Option<String>, _>`: `none` on NULL, otherwise the
cell coerced to text. -/
def sqlite_read_text : SqliteRaw → Option String
  | .null => none
  | .int i => some (toString i)
  | .real q => some (ratToString q)
  | .text s => some s
  | .blob _ => some ""

/-- Split a character list at every occurrence of `sep` (the splitting
primitive of the temporal parser models; structurally recursive so that
proofs can evaluate it). -/
def splitChar (sep : Char) : List Char → List (List Char)
  | [] => [[]]
  | c :: rest =>
    if c = sep then [] :: splitChar sep rest
    else
      match splitChar sep rest with
      | [] => [[c]]
      | g :: gs => (c :: g) :: gs

/-- Non-empty all-digit check used by the temporal parser models. -/
def allDigits (l : List Char) : Bool :=
  !l.isEmpty && l.all Char.isDigit

/-- Digits to a natural number. -/
def digitsToNat (l : List Char) : Nat :=
  l.foldl (fun acc c => acc * 10 + (c.toNat - '0'.toNat)) 0

/-- Model of chrono `NaiveTime::parse_from_str(raw, "%H:%M:%S")`: three
colon-separated digit groups, range-checked; error texts follow chrono's
`ParseError` display. -/
def parse_hms (s : String) : Except String NaiveTime :=
  match splitChar ':' s.data with
  | [h, m, sec] =>
    if allDigits h ∧ allDigits m ∧ allDigits sec then
      let hv := digitsToNat h
      let mv := digitsToNat m
      let sv := digitsToNat sec
      if hv < 24 ∧ mv < 60 ∧ sv < 60 then .ok ⟨hv, mv, sv⟩
      else .error "input is out of range"
    else .error "input contains invalid characters"
  | _ => .error "input contains invalid characters"

/-- Days of each month, with leap years (chrono's calendar validation). -/
def daysInMonth (y m : Nat) : Nat :=
  if m = 2 then
    if y % 4 = 0 ∧ (y % 100 ≠ 0 ∨ y % 400 = 0) then 29 else 28
  else if m = 4 ∨ m = 6 ∨ m = 9 ∨ m = 11 then 30
  else 31

/-- Model of chrono `NaiveDate::parse_from_str(raw, "%Y-%m-%d")`. -/
def parse_ymd (s : String) : Except String NaiveDate :=
  match splitChar '-' s.data with
  | [y, m, d] =>
    if allDigits y ∧ allDigits m ∧ allDigits d then
      let yv := digitsToNat y
      let mv := digitsToNat m
      let dv := digitsToNat d
      if 1 ≤ mv ∧ mv ≤ 12 ∧ 1 ≤ dv ∧ dv ≤ daysInMonth yv mv then .ok ⟨yv, mv, dv⟩
      else .error "input is out of range"
    else .error "input contains invalid characters"
  | _ => .error "input contains invalid characters"

/-- Model of chrono `DateTime::parse_from_rfc3339`: `date` `T` `time`
followed by `Z` or a signed `HH:MM` offset (fractional seconds are not
produced by any claim's inputs and are not modelled). -/
def parse_rfc3339 (s : String) : Except String FixedDateTime :=
  match splitChar 'T' s.data with
  | [ds, rest] =>
    match parse_ymd (String.mk ds) with
    | .error e => .error e
    | .ok d =>
      match parse_hms (String.mk (rest.take 8)) with
      | .error e => .error e
      | .ok t =>
        match rest.drop 8 with
        | ['Z'] => .ok ⟨d, t, 0⟩
        | c :: offRest =>
          let sign : Int := if c = '+' then 1 else if c = '-' then -1 else 0
          if sign = 0 then .error "input contains invalid characters"
          else
            match splitChar ':' offRest with
            | [oh, om] =>
              if allDigits oh ∧ allDigits om then
                .ok ⟨d, t, sign * ((digitsToNat oh : Int) * 60 + (digitsToNat om : Int))⟩
              else .error "input contains invalid characters"
            | _ => .error "input contains invalid characters"
        | [] => .error "premature end of input"
  | _ => .error "input contains invalid characters"

/-- `sqlite.rs` `fetch`, one cell: `statement.read` for the field's kind on
the current raw row, every read error wrapped by `efmt` with `row.len()` —
the number of cells already decoded in the CURRENT row, i.e. the field's
position `k`, not the row index.  Temporal parse failures are not wrapped. -/
def sqlite_decode_cell (cols : List String) (raw : List SqliteRaw)
    (col : Field) (k : Nat) : Except String Value :=
  let efmt := fun (e : String) =>
    "Read column " ++ col.field ++ " row " ++ toString k ++ " failed: " ++ e
  match cols.findIdx? (fun c => c = col.field) with
  | none => .error (efmt ("the index is out of range (" ++ col.field ++ ")"))
  | some i =>
    let cell := raw.getD i SqliteRaw.null
    match col.kind with
    | .integer => .ok ⟨(sqlite_read_int cell).map TypedValue.integer, col⟩
    | .string => .ok ⟨(sqlite_read_text cell).map TypedValue.string, col⟩
    | .float => .ok ⟨(sqlite_read_float cell).map TypedValue.float, col⟩
    | .time =>
      match sqlite_read_text cell with
      | none => .ok ⟨none, col⟩
      | some rawText =>
        match parse_hms rawText with
        | .error e => .error ("Error on parse the " ++ rawText ++ " to time: " ++ e)
        | .ok t => .ok ⟨some (TypedValue.time t), col⟩
    | .date =>
      match sqlite_read_text cell with
      | none => .ok ⟨none, col⟩
      | some rawText =>
        match parse_ymd rawText with
        | .error e => .error ("Error on parse the " ++ rawText ++ " to date: " ++ e)
        | .ok d => .ok ⟨some (TypedValue.date d), col⟩
    | .dateTime =>
      match sqlite_read_text cell with
      | none => .ok ⟨none, col⟩
      | some rawText =>
        match parse_rfc3339 rawText with
        | .error e => .error ("Error on parse the " ++ rawText ++ " to datetime: " ++ e)
        | .ok dt => .ok ⟨some (TypedValue.dateTime dt), col⟩

/-- The inner `for col in &query.fields` loop of `sqlite.rs` `fetch`,
carrying `k = row.len()`, the count of cells already pushed. -/
def sqlite_decode_row (cols : List String) (raw : List SqliteRaw) :
    List Field → Nat → Except String (List Value)
  | [], _ => .ok []
  | f :: fs, k =>
    match sqlite_decode_cell cols raw f k with
    | .error e => .error e
    | .ok v =>
      match sqlite_decode_row cols raw fs (k + 1) with
      | .error e => .error e
      | .ok vs => .ok (v :: vs)

/-- The outer `while let Ok(State::Row)` loop of `sqlite.rs` `fetch`. -/
def sqlite_decode_rows (cols : List String) (fields : List Field) :
    List (List SqliteRaw) → Except String (List (List Value))
  | [] => .ok []
  | raw :: rest =>
    match sqlite_decode_row cols raw fields 0 with
    | .error e => .error e
    | .ok row =>
      match sqlite_decode_rows cols fields rest with
      | .error e => .error e
      | .ok rows => .ok (row :: rows)

/-- `sqlite.rs` `SqliteDriver::fetch` (driver state = the optional live
connection). -/
def sqlite_fetch (conn : Option SqliteConn) (query : Query) :
    Except String (List (List Value)) :=
  match conn with
  | none => .error "Connection not established"
  | some c =>
    match c.prepare query.sql with
    | .error e => .error ("Prepare statement failed: " ++ e)
    | .ok stmt => sqlite_decode_rows stmt.cols query.fields stmt.rows

/-! ## Postgres driver (`source/postgres.rs`)

`tokio_postgres` is modelled by a connection that prepares a statement
(reporting typed columns) and runs it (yielding raw typed rows).  A raw
cell always carries the wire value of its column's declared type; a
mismatch between a requested Rust type and the cell is a `try_get` error
(never produced by a real server, modelled for totality). -/

/-- Postgres column type (the cases the driver inspects, plus a catch-all
carrying its display name). -/
inductive PgType where
  | int2
  | int4
  | int8
  | varchar
  | text
  | float4
  | float8
  | numeric
  | date
  | time
  | timestamp
  | timestamptz
  | other (name : String)
deriving DecidableEq, Repr

/-- Postgres type display names, as interpolated into the driver's
`Invalid ... type` messages. -/
def pgTypeName : PgType → String
  | .int2 => "int2"
  | .int4 => "int4"
  | .int8 => "int8"
  | .varchar => "varchar"
  | .text => "text"
  | .float4 => "float4"
  | .float8 => "float8"
  | .numeric => "numeric"
  | .date => "date"
  | .time => "time"
  | .timestamp => "timestamp"
  | .timestamptz => "timestamptz"
  | .other n => n

/-- A column of a prepared Postgres statement. -/
structure PgColumn where
  name : String
  type_ : PgType
deriving DecidableEq, Repr

/-- A prepared Postgres statement. -/
structure PgStmt where
  columns : List PgColumn
deriving DecidableEq, Repr

/-- A raw Postgres cell (wire value, already typed by the protocol). -/
inductive PgRaw where
  | null
  | int (i : Int)
  | float (q : Rat)
  | text (s : String)
  | date (d : NaiveDate)
  | time (t : NaiveTime)
  | timestamp (d : NaiveDate) (t : NaiveTime)
  | timestamptz (dt : FixedDateTime)
deriving DecidableEq, Repr

/-- A live Postgres connection: `prepare` models `Client::prepare`,
`runQuery` models `Client::query(&stmt, &[])`. -/
structure PgConn where
  prepare : String → Except String PgStmt
  runQuery : PgStmt → Except String (List (List PgRaw))

/-- Display of a `tokio_postgres` `try_get` conversion error (external
library text, modelled by a fixed message; never produced by a real
server since cells match their declared column type). -/
def pgWrongType : String :=
  "cannot convert between the Rust type and the Postgres type"

/-- `row.try_get::<usize, Option<i64/i32/i16>>`. -/
def pg_get_int : PgRaw → Except String (Option Int)
  | .null => .ok none
  | .int i => .ok (some i)
  | _ => .error pgWrongType

/-- `row.try_get::<usize, Option<f64/f32>>` and the `Decimal` read
(`to_f64().unwrap_or(0.0)` makes the numeric read total on its values). -/
def pg_get_float : PgRaw → Except String (Option Rat)
  | .null => .ok none
  | .float q => .ok (some q)
  | _ => .error pgWrongType

/-- `row.try_get::<usize, Option<String>>`. -/
def pg_get_text : PgRaw → Except String (Option String)
  | .null => .ok none
  | .text s => .ok (some s)
  | _ => .error pgWrongType

/-- `row.try_get::<usize, Option<NaiveDate>>`. -/
def pg_get_date : PgRaw → Except String (Option NaiveDate)
  | .null => .ok none
  | .date d => .ok (some d)
  | _ => .error pgWrongType

/-- `row.try_get::<usize, Option<NaiveTime>>`. -/
def pg_get_time : PgRaw → Except String (Option NaiveTime)
  | .null => .ok none
  | .time t => .ok (some t)
  | _ => .error pgWrongType

/-- `row.try_get::<usize, Option<DateTime<FixedOffset>>>`. -/
def pg_get_timestamptz : PgRaw → Except String (Option FixedDateTime)
  | .null => .ok none
  | .timestamptz dt => .ok (some dt)
  | _ => .error pgWrongType

/-- `row.try_get::<usize, Option<NaiveDateTime>>`, then
`DateTime::from_naive_utc_and_offset(v, utc)` with the zero offset. -/
def pg_get_timestamp : PgRaw → Except String (Option FixedDateTime)
  | .null => .ok none
  | .timestamp d t => .ok (some ⟨d, t, 0⟩)
  | _ => .error pgWrongType

/-- `postgres.rs` `fetch`, one cell: the `match col.kind` dispatch over the
column's Postgres type, before the `efmt`-style wrapping. -/
def pg_decode_cell (col : Field) (rcol : PgColumn) (cell : PgRaw) :
    Except String (Option TypedValue) :=
  match col.kind with
  | .integer =>
    match rcol.type_ with
    | .int2 => (pg_get_int cell).map (fun ov => ov.map TypedValue.integer)
    | .int4 => (pg_get_int cell).map (fun ov => ov.map TypedValue.integer)
    | .int8 => (pg_get_int cell).map (fun ov => ov.map TypedValue.integer)
    | t => .error ("Invalid integer type " ++ pgTypeName t)
  | .string => (pg_get_text cell).map (fun ov => ov.map TypedValue.string)
  | .float =>
    match rcol.type_ with
    | .float4 => (pg_get_float cell).map (fun ov => ov.map TypedValue.float)
    | .float8 => (pg_get_float cell).map (fun ov => ov.map TypedValue.float)
    | .numeric => (pg_get_float cell).map (fun ov => ov.map TypedValue.float)
    | t => .error ("Invalid float type " ++ pgTypeName t)
  | .date => (pg_get_date cell).map (fun ov => ov.map TypedValue.date)
  | .time => (pg_get_time cell).map (fun ov => ov.map TypedValue.time)
  | .dateTime =>
    match rcol.type_ with
    | .timestamptz => (pg_get_timestamptz cell).map (fun ov => ov.map TypedValue.dateTime)
    | .timestamp => (pg_get_timestamp cell).map (fun ov => ov.map TypedValue.dateTime)
    | t => .error ("Invalid datetime type " ++ pgTypeName t)

/-- The column-resolution loop of `postgres.rs` `fetch`: each field by
exact name against the statement's reported columns; absent names fail
with `Column <name> not found` before any row is decoded. -/
def pg_resolve (stmt : PgStmt) : List Field → Except String (List (Field × Nat × PgColumn))
  | [] => .ok []
  | col :: rest =>
    match stmt.columns.findIdx? (fun c => c.name = col.field) with
    | none => .error ("Column " ++ col.field ++ " not found")
    | some idx =>
      match pg_resolve stmt rest with
      | .error e => .error e
      | .ok cs => .ok ((col, idx, stmt.columns.getD idx ⟨"", .other ""⟩) :: cs)

/-- The inner cell loop of `postgres.rs` `fetch`, carrying `k = r.len()`,
the count of cells already pushed in the CURRENT row (the field's
position; the message labels it `row`). -/
def pg_decode_row (raw : List PgRaw) :
    List (Field × Nat × PgColumn) → Nat → Except String (List Value)
  | [], _ => .ok []
  | (col, idx, rcol) :: rest, k =>
    match (pg_decode_cell col rcol (raw.getD idx PgRaw.null)).mapError
        (fun e => "Column " ++ col.field ++ " row " ++ toString k ++ " error: " ++ e) with
    | .error e => .error e
    | .ok inner =>
      match pg_decode_row raw rest (k + 1) with
      | .error e => .error e
      | .ok vs => .ok (⟨inner, col⟩ :: vs)

/-- The outer row loop of `postgres.rs` `fetch`. -/
def pg_decode_rows (columns : List (Field × Nat × PgColumn)) :
    List (List PgRaw) → Except String (List (List Value))
  | [] => .ok []
  | raw :: rest =>
    match pg_decode_row raw columns 0 with
    | .error e => .error e
    | .ok row =>
      match pg_decode_rows columns rest with
      | .error e => .error e
      | .ok rows => .ok (row :: rows)

/-- `postgres.rs` `PostgresDriver::fetch`. -/
def pg_fetch (conn : Option PgConn) (query : Query) :
    Except String (List (List Value)) :=
  match conn with
  | none => .error "Connection not established"
  | some c =>
    match c.prepare query.sql with
    | .error e => .error ("Prepare statement failed: " ++ e)
    | .ok stmt =>
      match c.runQuery stmt with
      | .error e => .error ("Query failed: " ++ e)
      | .ok qrows =>
        match pg_resolve stmt query.fields with
        | .error e => .error e
        | .ok columns => pg_decode_rows columns qrows

/-- Which Postgres column types the driver's `match col.kind` dispatch
accepts for each logical field type (any other combination fails with the
driver's `Invalid ... type` error, or a `try_get` conversion error for
the kinds read without a preliminary type check). -/
def pgAccepts : FieldType → PgType → Bool
  | .integer, .int2 | .integer, .int4 | .integer, .int8 => true
  | .integer, _ => false
  | .string, _ => true
  | .float, .float4 | .float, .float8 | .float, .numeric => true
  | .float, _ => false
  | .date, _ => true
  | .time, _ => true
  | .dateTime, .timestamp | .dateTime, .timestamptz => true
  | .dateTime, _ => false

/-! ## Query executor (`source/mod.rs`) -/

/-- `source/mod.rs`: `SourceType`. -/
inductive SourceType where
  | sqlite
  | postgres
deriving DecidableEq, Repr

/-- `source/mod.rs`: `Source`. -/
structure Source where
  kind : SourceType
  conn : String
deriving Repr

/-- The `Driver` trait of `source/mod.rs`, as a record over an explicit
driver-state type `σ` (the trait object's `&mut self`): `connect`
transforms the state, `fetch` yields a per-query result and the state
after the call. -/
structure Driver (σ : Type) where
  connect : σ → String → Except String σ
  fetch : σ → Query → Except String (List (List Value)) × σ

/-- The `for query in querys` loop of `source/mod.rs` `fetch`: each query
is fetched in order and paired with its own result, errors recorded
without unwrapping. -/
def runQuerys (d : Driver σ) (s : σ) :
    List Query → List (Query × Except String (List (List Value)))
  | [] => []
  | q :: qs =>
    let (result, s') := d.fetch s q
    (q, result) :: runQuerys d s' qs

/-- `source/mod.rs` `fetch`: obtain the driver (supplied here as `d`, the
value `get_driver` returns for the source's kind), connect once, then run
every query. -/
def source_fetch (d : Driver σ) (s : σ) (source : Source) (querys : List Query) :
    Except String (List (Query × Except String (List (List Value)))) :=
  match d.connect s source.conn with
  | .error e => .error e
  | .ok s1 => .ok (runQuerys d s1 querys)

/-- The driver state threaded through the first `n` queries of the run. -/
def stateAfter (d : Driver σ) (s : σ) (qs : List Query) : σ :=
  qs.foldl (fun st q => (d.fetch st q).2) s

/-- The sqlite driver as a `Driver` over its optional connection, given
the external `sqlite::open` behavior. -/
def sqliteDriver (open_ : String → Except String SqliteConn) :
    Driver (Option SqliteConn) where
  connect := fun _ conn =>
    ((open_ conn).mapError (fun e => "Sqlite connection failed: " ++ e)).map some
  fetch := fun s q => (sqlite_fetch s q, s)

/-- The postgres driver as a `Driver` over its optional connection, given
the external `tokio_postgres::connect` behavior. -/
def pgDriver (connect_ : String → Except String PgConn) :
    Driver (Option PgConn) where
  connect := fun _ conn =>
    ((connect_ conn).mapError (fun e => "Postgres connection failed: " ++ e)).map some
  fetch := fun s q => (pg_fetch s q, s)

/-! ## Concrete instances used by witnesses and counterexamples -/

/-- A tiny test driver over a `Nat` call counter: its second fetch fails,
every other fetch returns no rows. -/
def c2Driver : Driver Nat where
  connect := fun s _ => .ok s
  fetch := fun s _ => ((if s = 1 then .error "boom" else .ok []), s + 1)

/-- A sqlite connection whose prepared statement reports only column `a`
with a single all-NULL row. -/
def sqMissingColConn : SqliteConn :=
  ⟨fun _ => .ok ⟨["a"], [[.null]]⟩⟩

/-- A query asking the above statement for column `g`, which is absent. -/
def sqMissingColQuery : Query :=
  ⟨"select * from test", "Test", [⟨"a", "a", .string⟩, ⟨"g", "g", .integer⟩]⟩

/-- A sqlite connection with a single `qq` text column: the first row
parses as a time, the second row does not. -/
def sqBadTimeConn : SqliteConn :=
  ⟨fun _ => .ok ⟨["qq"], [[.text "10:00:00"], [.text "99x"]]⟩⟩

/-- A query decoding the `qq` column as a Time field. -/
def sqBadTimeQuery : Query :=
  ⟨"select * from test", "Test", [⟨"qq", "qq", .time⟩]⟩

/-- A postgres connection whose statement has a `varchar` column `a` and a
`text` column `b`, with one row. -/
def pgBadIntConn : PgConn :=
  ⟨fun _ => .ok ⟨[⟨"a", .varchar⟩, ⟨"b", .text⟩]⟩,
   fun _ => .ok [[.text "x", .text "y"]]⟩

/-- A query decoding `a` as String and `b` as Integer — `b`'s `text`
column type is invalid for an Integer field. -/
def pgBadIntQuery : Query :=
  ⟨"select * from test", "Test", [⟨"a", "a", .string⟩, ⟨"b", "b", .integer⟩]⟩

/-- A postgres connection with an `int4` column `g` absent from the query
below, and no rows. -/
def pgMissingColConn : PgConn :=
  ⟨fun _ => .ok ⟨[⟨"a", .varchar⟩]⟩, fun _ => .ok []⟩

/-- A query asking the above statement for column `g`, which is absent. -/
def pgMissingColQuery : Query :=
  ⟨"select * from test", "Test", [⟨"a", "a", .string⟩, ⟨"g", "g", .integer⟩]⟩

/-- A sqlite connection whose statement has one column `a` holding a
single NULL cell. -/
def sqNullConn : SqliteConn :=
  ⟨fun _ => .ok ⟨["a"], [[.null]]⟩⟩

/-- A query decoding that single column as a String field. -/
def sqNullQuery : Query :=
  ⟨"select * from test", "Test", [⟨"a", "a", .string⟩]⟩

/-- A postgres connection whose statement has one `varchar` column `a`
holding a single NULL cell. -/
def pgNullConn : PgConn :=
  ⟨fun _ => .ok ⟨[⟨"a", .varchar⟩]⟩, fun _ => .ok [[.null]]⟩

/-- A query decoding that single column as a String field. -/
def pgNullQuery : Query :=
  ⟨"select * from test", "Test", [⟨"a", "a", .string⟩]⟩

/-! ## Reference definitions taken from the claims' wording -/

/-- The per-entry report section as the (amended) claim C1 describes it:
the level-2 heading, then `Query falied: <error>` on a fetch error (the
source's literal text), `Empty result` on zero rows, the component's
content on a successful render, and `Error on rendering: <error>` on a
render failure. -/
def claimSection (format : OutputFormat) (query : Query) (comp : Component)
    (result : Except String (List (List Value))) : String :=
  format.title2 ("Query: " ++ query.title) ++
  match result with
  | .error e => format.simple ("Query falied: " ++ e)
  | .ok rows =>
    if rows = [] then format.simple "Empty result"
    else
      match comp query rows format with
      | .ok rc => format.simple rc.content
      | .error e => format.simple ("Error on rendering: " ++ e)

/-- The images one entry contributes to the report: only a successful
render contributes any. -/
def claimImages (format : OutputFormat) (query : Query) (comp : Component)
    (result : Except String (List (List Value))) : List ImagePresented :=
  match result with
  | .error _ => []
  | .ok rows =>
    if rows = [] then []
    else
      match comp query rows format with
      | .ok rc => rc.images
      | .error _ => []

/-- The concatenated section block of the report body, one section per
entry in input order, each framed by the format's break lines. -/
def sectionsText (format : OutputFormat) :
    List (Query × Component × Except String (List (List Value))) → String
  | [] => ""
  | (q, comp, res) :: rest =>
    format.break_line ++ claimSection format q comp res ++
      format.break_line ++ format.break_line ++ sectionsText format rest

/-- The images accumulated across entries, in input order. -/
def sectionImages (format : OutputFormat) :
    List (Query × Component × Except String (List (List Value))) → List ImagePresented
  | [] => []
  | (q, comp, res) :: rest =>
    claimImages format q comp res ++ sectionImages format rest

/-- Claim C4's "decoded value" of a row's field, total: the `get_key_by`
result, or `""` where it is an error (the error case is excluded by the
claim theorem's hypotheses). -/
def keyD (name : String) (row : List Value) : String :=
  match get_key_by name row with
  | .ok s => s
  | .error _ => ""

/-- Claim C4's float coercion of a row's value field, total: the
`get_value_by` result, or `0` where it is an error. -/
def valD (name : String) (row : List Value) : Rat :=
  match get_value_by name row with
  | .ok v => v
  | .error _ => 0

/-- Claim C4's "ordered set of distinct decoded values ... in
first-occurrence order". -/
def distinctFirstOcc (l : List String) : List String :=
  l.foldl (fun acc x => if x ∈ acc then acc else acc ++ [x]) []

/-- One row's effect on claim C4's value vector: if the row belongs to
the series, overwrite the position of the row's `keys_by` value (rows
whose key is not in `keys` are ignored). -/
def specStep (sb : ChartSeriesBy) (kb : String) (keys : List String) (sname : String)
    (vec : List Rat) (row : List Value) : List Rat :=
  if keyD sb.key row = sname then
    match firstIdx (fun k => k = keyD kb row) keys with
    | some i => vec.set i (valD sb.values row)
    | none => vec
  else vec

/-- Claim C4's value vector for one series: aligned one-to-one with
`keys`, every position defaulting to `0.0`, then for every row whose
`series_by.key` equals the series, the position matching that row's
`keys_by` value overwritten with the row's `series_by.values` as float. -/
def specVector (sb : ChartSeriesBy) (kb : String) (keys : List String)
    (sname : String) (data : List (List Value)) : List Rat :=
  data.foldl (specStep sb kb keys sname) (keys.map (fun _ => (0 : Rat)))

/-- Claim C4's grouped-mode output: one series per distinct
`series_by.key` value in first-occurrence order, each holding its value
vector. -/
def specGrouped (sb : ChartSeriesBy) (kb : String) (keys : List String)
    (data : List (List Value)) : List Series :=
  (distinctFirstOcc (data.map (keyD sb.key))).map
    (fun n => ⟨n, specVector sb kb keys n data⟩)

/-- Kernel-computable substring test on the character lists: does `hay`
contain `needle` as a contiguous run?  Used to state that an error
message does or does not mention a given text. -/
def containsChars (needle : List Char) : List Char → Bool
  | [] => needle.isEmpty
  | c :: rest => needle.isPrefixOf (c :: rest) || containsChars needle rest

/-- Substring test on strings (via `containsChars`). -/
def strContains (s pat : String) : Bool :=
  containsChars pat.data s.data

/-! ## Helper lemmas -/

/-- `collectKeys` only grows its accumulator. -/
theorem collectKeys_ok_subset {name : String} :
    ∀ {data : List (List Value)} {acc ks : List String},
    collectKeys name acc data = .ok ks → acc ⊆ ks := by
  intro data
  induction data with
  | nil =>
    intro acc ks h
    unfold collectKeys at h
    cases h
    exact fun _ hx => hx
  | cons row rest ih =>
    intro acc ks h
    unfold collectKeys at h
    cases hget : get_key_by name row with
    | error e => rw [hget] at h; cases h
    | ok v =>
      rw [hget] at h
      by_cases hv : v ∈ acc
      · simp only [if_pos hv] at h
        exact ih h
      · simp only [if_neg hv] at h
        intro x hx
        exact ih h (List.mem_append_left _ hx)

/-- `collectKeys` keeps its accumulator duplicate-free. -/
theorem collectKeys_ok_nodup {name : String} :
    ∀ {data : List (List Value)} {acc ks : List String},
    acc.Nodup → collectKeys name acc data = .ok ks → ks.Nodup := by
  intro data
  induction data with
  | nil =>
    intro acc ks hnd h
    unfold collectKeys at h
    cases h
    exact hnd
  | cons row rest ih =>
    intro acc ks hnd h
    unfold collectKeys at h
    cases hget : get_key_by name row with
    | error e => rw [hget] at h; cases h
    | ok v =>
      rw [hget] at h
      by_cases hv : v ∈ acc
      · simp only [if_pos hv] at h
        exact ih hnd h
      · simp only [if_neg hv] at h
        refine ih ?_ h
        simp only [List.nodup_append, List.nodup_cons, List.nodup_nil]
        exact ⟨hnd, ⟨by simp, trivial⟩, by
          intro a ha hb
          simp only [List.mem_singleton] at hb
          exact hv (hb ▸ ha)⟩

/-- Every key decoded from a listed row survives into `collectKeys`'s
final key list. -/
theorem collectKeys_ok_mem {name : String} :
    ∀ {data : List (List Value)} {acc ks : List String} {row : List Value} {k : String},
    row ∈ data → get_key_by name row = .ok k →
    collectKeys name acc data = .ok ks → k ∈ ks := by
  intro data
  induction data with
  | nil => intro _ _ _ _ hmem; cases hmem
  | cons r rest ih =>
    intro acc ks row k hmem hkey h
    unfold collectKeys at h
    cases hget : get_key_by name r with
    | error e => rw [hget] at h; cases h
    | ok v =>
      rw [hget] at h
      rcases List.mem_cons.mp hmem with heq | htail
      · subst heq
        rw [hget] at hkey
        cases hkey
        by_cases hv : k ∈ acc
        · simp only [if_pos hv] at h
          exact collectKeys_ok_subset h hv
        · simp only [if_neg hv] at h
          exact collectKeys_ok_subset h (List.mem_append_right _ (List.mem_singleton.mpr rfl))
      · by_cases hv : v ∈ acc
        · simp only [if_pos hv] at h
          exact ih htail hkey h
        · simp only [if_neg hv] at h
          exact ih htail hkey h

/-- `groupedSeries` names its output series by the group names, in order. -/
theorem groupedSeries_ok_names {sb : ChartSeriesBy} {kb : String}
    {keys : List String} {data : List (List Value)} :
    ∀ {ds : List String} {ss : List Series},
    groupedSeries sb kb keys data ds = .ok ss → ss.map Series.name = ds := by
  intro ds
  induction ds with
  | nil =>
    intro ss h
    unfold groupedSeries at h
    cases h
    rfl
  | cons serie rest ih =>
    intro ss h
    unfold groupedSeries at h
    cases how : overwritePairs sb kb serie data (keys.map (fun k => (k, 0))) with
    | error e => rw [how] at h; cases h
    | ok pairs =>
      rw [how] at h
      cases hrest : groupedSeries sb kb keys data rest with
      | error e => rw [hrest] at h; cases h
      | ok ss2 =>
        rw [hrest] at h
        cases h
        simp only [List.map_cons]
        rw [ih hrest]

/-! ## Claim C8 — TypedValue rendering -/

/-- C8: `to_string` returns the text itself for String, locale-independent
decimal text for Integer and Float (`Integer(1234)` gives `"1234"`), and
the canonical `HH:MM:SS`, `YYYY-MM-DD` and `YYYY-MM-DD HH:MM:SS ±HH:MM`
forms for Time, Date and DateTime; an absent `Value` renders as the empty
string (through the table cell path), never as a literal `"null"`. -/
theorem C8_to_string_canonical :
    (∀ s, (TypedValue.string s).to_string = s) ∧
    (∀ i : Int, (TypedValue.integer i).to_string = toString i) ∧
    ((TypedValue.integer 1234).to_string = "1234") ∧
    ((TypedValue.float (mkRat 123456 100)).to_string = "1234.56") ∧
    ((TypedValue.time ⟨12, 35, 25⟩).to_string = "12:35:25") ∧
    ((TypedValue.date ⟨2025, 5, 12⟩).to_string = "2025-05-12") ∧
    ((TypedValue.dateTime ⟨⟨2015, 5, 15⟩, ⟨0, 0, 0⟩, 0⟩).to_string =
      "2015-05-15 00:00:00 +00:00") ∧
    (∀ t : NaiveTime, (TypedValue.time t).to_string =
      pad2 t.hour ++ ":" ++ pad2 t.minute ++ ":" ++ pad2 t.second) ∧
    (∀ d : NaiveDate, (TypedValue.date d).to_string =
      pad4 d.year ++ "-" ++ pad2 d.month ++ "-" ++ pad2 d.day) ∧
    (∀ dt : FixedDateTime, (TypedValue.dateTime dt).to_string =
      dt.date.to_string ++ " " ++ dt.time.to_string ++ " " ++ offsetToString dt.offsetMinutes) ∧
    (∀ f : Field, cell_text ⟨none, f⟩ = "") ∧
    (∀ f : Field, cell_text ⟨none, f⟩ ≠ "null") := by
  refine ⟨fun s => rfl, fun i => rfl, by decide, by decide, by decide, by decide, by decide,
    fun t => rfl, fun d => rfl, fun dt => rfl, fun f => rfl, fun f => ?_⟩
  intro h
  have : ("" : String) = "null" := h
  simp at this

/-! ## Claim C3 — charts refuse non-HTML formats before touching data -/

/-- C3: for every chart configuration (any kind), query, row set, external
collaborators and output format other than HTML, `ChartComponent::render`
fails with exactly `"Output format without chart support"`; since the
result is this error uniformly in the configuration and the data, the
check precedes any key or series derivation. -/
theorem C3_chart_requires_html (ext : ChartExternals) (c : ChartComponent)
    (q : Query) (data : List (List Value)) (format : OutputFormat)
    (h : format ≠ OutputFormat.html) :
    c.render ext q data format = .error "Output format without chart support" := by
  unfold ChartComponent.render
  rw [if_pos h]

/-- Witness for C3 at the Plain format with a bar chart. -/
theorem C3_chart_requires_html_witness :
    OutputFormat.plain ≠ OutputFormat.html ∧
    (ChartComponent.mk .bar (some "k") none (some ["f"])).render
      ⟨fun _ _ _ => .error "", fun _ => .error "", ""⟩
      ⟨"SELECT 1", "Test", []⟩ [] OutputFormat.plain =
      .error "Output format without chart support" :=
  ⟨by decide,
   C3_chart_requires_html ⟨fun _ _ _ => .error "", fun _ => .error "", ""⟩
     (ChartComponent.mk .bar (some "k") none (some ["f"])) ⟨"SELECT 1", "Test", []⟩ []
     OutputFormat.plain (by decide)⟩

/-! ## Claim C9 — mandatory keys/series configuration -/

/-- C9: a missing `keys_by` makes a bar or line chart's render fail with
the descriptive error `"Keys must be defined"`, while a pie chart's key
derivation succeeds (with no keys) when `keys_by` is absent; and a
configuration with neither `series` nor `series_by` makes
`prepare_series` fail with `"Series must be defined"` uniformly in the
row data (so before any pass over it). -/
theorem C9_required_configuration :
    (∀ (ext : ChartExternals) (c : ChartComponent) (q : Query) (data : List (List Value)),
      (c.kind = ChartType.bar ∨ c.kind = ChartType.line) → c.keys_by = none →
      c.render ext q data OutputFormat.html = .error "Keys must be defined") ∧
    (∀ (c : ChartComponent) (q : Query) (data : List (List Value)),
      c.kind = ChartType.pizza → c.keys_by = none →
      c.prepare_keys q data = .ok []) ∧
    (∀ (c : ChartComponent) (q : Query) (keys : List String) (data : List (List Value)),
      c.series = none → c.series_by = none →
      c.prepare_series q keys data = .error "Series must be defined") := by
  refine ⟨?_, ?_, ?_⟩
  · intro ext c q data hkind hkb
    have hnp : c.kind ≠ ChartType.pizza := by
      rcases hkind with h | h <;> rw [h] <;> intro hh <;> cases hh
    unfold ChartComponent.render
    rw [if_neg (fun h => h rfl)]
    unfold ChartComponent.prepare_keys
    rw [if_pos ⟨hkb, hnp⟩]
  · intro c q data hkind hkb
    unfold ChartComponent.prepare_keys
    rw [if_neg (by intro h; exact h.2 hkind), hkb]
  · intro c q keys data hs hsb
    unfold ChartComponent.prepare_series
    rw [if_pos ⟨hs, hsb⟩]

/-- Witness for C9: a keyless bar chart, a keyless pie chart and a
series-less configuration, all concrete. -/
theorem C9_required_configuration_witness :
    ((ChartComponent.mk .bar none none (some ["age"])).render
      ⟨fun _ _ _ => .error "", fun _ => .error "", ""⟩
      ⟨"select 1", "T", []⟩ [] OutputFormat.html = .error "Keys must be defined") ∧
    ((ChartComponent.mk .pizza none none (some ["age"])).prepare_keys
      ⟨"select 1", "T", []⟩ [] = .ok []) ∧
    ((ChartComponent.mk .bar (some "name") none none).prepare_series
      ⟨"select 1", "T", []⟩ [] [] = .error "Series must be defined") :=
  ⟨C9_required_configuration.1 ⟨fun _ _ _ => .error "", fun _ => .error "", ""⟩
      (ChartComponent.mk .bar none none (some ["age"])) ⟨"select 1", "T", []⟩ []
      (Or.inl rfl) rfl,
   C9_required_configuration.2.1 (ChartComponent.mk .pizza none none (some ["age"]))
      ⟨"select 1", "T", []⟩ [] rfl rfl,
   C9_required_configuration.2.2 (ChartComponent.mk .bar (some "name") none none)
      ⟨"select 1", "T", []⟩ [] [] rfl rfl⟩

/-! ## Claim C10 — NULL cells in chart key/value derivation -/

/-- C10: a row whose key cell holds SQL NULL is not an error: `get_key_by`
decodes the absent value as the empty-string key and `get_value_by`
coerces an absent value cell to `0.0`; the key list (and the grouped
series-name list) is duplicate-free, so all NULL-keyed rows collapse into
a single `""` entry, which is present whenever some listed row has a NULL
key. -/
theorem C10_null_key_collapse :
    (∀ (name : String) (row : List Value) (fld : Field),
      row.find? (fun v => v.field.field = name) = some ⟨none, fld⟩ →
      get_key_by name row = .ok "") ∧
    (∀ (name : String) (row : List Value) (fld : Field),
      row.find? (fun v => v.field.field = name) = some ⟨none, fld⟩ →
      get_value_by name row = .ok 0) ∧
    (∀ (c : ChartComponent) (q : Query) (data : List (List Value)) (ks : List String),
      c.prepare_keys q data = .ok ks → ks.Nodup) ∧
    (∀ (c : ChartComponent) (q : Query) (data : List (List Value)) (ks : List String)
      (kb : String) (row : List Value) (fld : Field),
      c.keys_by = some kb → row ∈ data →
      row.find? (fun v => v.field.field = kb) = some ⟨none, fld⟩ →
      c.prepare_keys q data = .ok ks → "" ∈ ks) ∧
    (∀ (c : ChartComponent) (q : Query) (keys : List String) (data : List (List Value))
      (sl : List Series) (sb : ChartSeriesBy),
      c.series = none → c.series_by = some sb →
      c.prepare_series q keys data = .ok sl → (sl.map Series.name).Nodup) := by
  refine ⟨?_, ?_, ?_, ?_, ?_⟩
  · intro name row fld h
    unfold get_key_by
    rw [h]
  · intro name row fld h
    unfold get_value_by
    rw [h]
  · intro c q data ks h
    unfold ChartComponent.prepare_keys at h
    split at h
    · cases h
    · cases hkb : c.keys_by with
      | some name =>
        rw [hkb] at h
        exact collectKeys_ok_nodup List.nodup_nil h
      | none =>
        rw [hkb] at h
        cases h
        exact List.nodup_nil
  · intro c q data ks kb row fld hkb hmem hfind h
    have hkey : get_key_by kb row = .ok "" := by
      unfold get_key_by
      rw [hfind]
    unfold ChartComponent.prepare_keys at h
    split at h
    · cases h
    · rw [hkb] at h
      exact collectKeys_ok_mem hmem hkey h
  · intro c q keys data sl sb hs hsb h
    unfold ChartComponent.prepare_series at h
    rw [if_neg (fun hc => by rw [hsb] at hc; cases hc.2), hs, hsb] at h
    simp only [explicitPart, groupedPart] at h
    cases hkb : c.keys_by with
    | none => rw [hkb] at h; cases h
    | some kb =>
      rw [hkb] at h
      simp only at h
      cases hcoll : collectKeys sb.key [] data with
      | error e => rw [hcoll] at h; cases h
      | ok ds =>
        rw [hcoll] at h
        simp only at h
        cases hgs : groupedSeries sb kb keys data ds with
        | error e => rw [hgs] at h; cases h
        | ok ss =>
          rw [hgs] at h
          simp only [List.nil_append] at h
          cases h
          rw [groupedSeries_ok_names hgs]
          exact collectKeys_ok_nodup List.nodup_nil hcoll

/-- Witness for C10: one row whose `k` cell is NULL, inside a bar chart
keyed and grouped by `k`. -/
theorem C10_null_key_collapse_witness :
    (get_key_by "k" [Value.mk none ⟨"k", "K", .string⟩] = .ok "") ∧
    (get_value_by "k" [Value.mk none ⟨"k", "K", .string⟩] = .ok 0) ∧
    (List.Nodup [""]) ∧
    ("" ∈ [""]) ∧
    (List.Nodup (List.map Series.name [(⟨"", [0]⟩ : Series)])) := by
  refine ⟨?_, ?_, ?_, ?_, ?_⟩
  · exact C10_null_key_collapse.1 "k" [Value.mk none ⟨"k", "K", .string⟩]
      ⟨"k", "K", .string⟩ (by decide)
  · exact C10_null_key_collapse.2.1 "k" [Value.mk none ⟨"k", "K", .string⟩]
      ⟨"k", "K", .string⟩ (by decide)
  · exact C10_null_key_collapse.2.2.1 (ChartComponent.mk .bar (some "k") none (some []))
      ⟨"s", "T", []⟩ [[Value.mk none ⟨"k", "K", .string⟩]] [""] rfl
  · exact C10_null_key_collapse.2.2.2.1 (ChartComponent.mk .bar (some "k") none (some []))
      ⟨"s", "T", []⟩ [[Value.mk none ⟨"k", "K", .string⟩]] [""] "k"
      [Value.mk none ⟨"k", "K", .string⟩] ⟨"k", "K", .string⟩ rfl (by decide) (by decide) rfl
  · exact C10_null_key_collapse.2.2.2.2 (ChartComponent.mk .bar (some "k") (some ⟨"k", "k"⟩) none)
      ⟨"s", "T", []⟩ [""] [[Value.mk none ⟨"k", "K", .string⟩]] [⟨"", [0]⟩] ⟨"k", "k"⟩
      rfl rfl rfl

/-! ## Claim C1 — the presentation orchestrator -/

/-- One entry's section always renders (never propagates a failure), with
exactly the claimed text and images. -/
theorem present_query_as_eq (query : Query) (comp : Component)
    (result : Except String (List (List Value))) (format : OutputFormat) :
    present_query_as query comp result format =
      .ok ⟨claimSection format query comp result, claimImages format query comp result⟩ := by
  cases result with
  | error e => rfl
  | ok rows =>
    by_cases hrows : rows = []
    · subst hrows
      rfl
    · have hlen : rows.length > 0 := List.length_pos.mpr hrows
      simp only [present_query_as, claimSection, claimImages]
      rw [if_pos hlen, if_neg hrows, if_neg hrows]
      cases comp query rows format <;> rfl

/-- The orchestrator loop yields the concatenated sections and images. -/
theorem presentLoop_eq (format : OutputFormat) :
    ∀ data, presentLoop format data = .ok (sectionsText format data, sectionImages format data)
  | [] => rfl
  | (q, comp, res) :: rest => by
    unfold presentLoop
    rw [present_query_as_eq, presentLoop_eq format rest]
    rfl

/-- C1 (amended): `present_as` never fails, and its content is the
format-wrapped body holding the heading, then one section per entry in
input order — `Query falied: <error>` for a failed fetch (the source's
literal text, `falied`, not the claimed `failed`), `Empty result` for zero
rows, the rendered content on success, `Error on rendering: <error>` on a
render failure — followed by the fixed footer line. -/
theorem C1_present_as_sections (data : List (Query × Component × Except String (List (List Value))))
    (title : String) (format : OutputFormat) :
    present_as data title format = .ok
      { is_html := format = OutputFormat.html,
        content := format.body (format.title1 ("The " ++ title ++ " results are here!") ++
          sectionsText format data ++
          format.simple "Consider support the project at https://github.com/fernandobatels/lmr"),
        images := sectionImages format data } := by
  unfold present_as
  rw [presentLoop_eq]

/-! ## Claim C2 — the query executor isolates per-query failures -/

/-- The executor pairs each query with a result, preserving count. -/
theorem runQuerys_length {σ : Type} (d : Driver σ) :
    ∀ (qs : List Query) (s : σ), (runQuerys d s qs).length = qs.length
  | [], _ => rfl
  | q :: qs, s => by
    unfold runQuerys
    simp only [List.length_cons]
    rw [runQuerys_length d qs]

/-- The executor's output lists exactly the input queries, in order. -/
theorem runQuerys_map_fst {σ : Type} (d : Driver σ) :
    ∀ (qs : List Query) (s : σ), (runQuerys d s qs).map Prod.fst = qs
  | [], _ => rfl
  | q :: qs, s => by
    unfold runQuerys
    simp only [List.map_cons]
    rw [runQuerys_map_fst d qs]

/-- Slot `i` of the executor's output holds query `i` paired with the
driver's own result for it at the sequentially threaded state — whatever
the results (including errors) of the earlier queries were. -/
theorem runQuerys_get (d : Driver σ) :
    ∀ (qs : List Query) (s : σ) (i : Nat),
    (runQuerys d s qs).get? i =
      (qs.get? i).map (fun q => (q, (d.fetch (stateAfter d s (qs.take i)) q).1))
  | [], _, _ => by simp [runQuerys]
  | q :: qs, s, 0 => rfl
  | q :: qs, s, i + 1 => by
    unfold runQuerys
    simp only [List.get?]
    exact runQuerys_get d qs (d.fetch s q).2 i

/-- C2: whenever the driver connects, the executor returns `Ok` with one
`(query, result)` pair per input query in input order, each slot holding
the driver's own fetch result for that query at the sequentially threaded
driver state — so one query's fetch error is preserved in its slot and
never prevents the later queries from being fetched. -/
theorem C2_executor_isolation {σ : Type} (d : Driver σ) (s : σ) (source : Source)
    (querys : List Query) (s1 : σ) (h : d.connect s source.conn = .ok s1) :
    source_fetch d s source querys = .ok (runQuerys d s1 querys) ∧
    (runQuerys d s1 querys).length = querys.length ∧
    (runQuerys d s1 querys).map Prod.fst = querys ∧
    ∀ i, (runQuerys d s1 querys).get? i =
      (querys.get? i).map (fun q => (q, (d.fetch (stateAfter d s1 (querys.take i)) q).1)) := by
  refine ⟨?_, runQuerys_length d querys s1, runQuerys_map_fst d querys s1,
    fun i => runQuerys_get d querys s1 i⟩
  unfold source_fetch
  rw [h]

/-- Witness for C2: a three-query run against `c2Driver`, whose second
fetch fails; the output preserves three entries in order with the error
held in the middle slot. -/
theorem C2_executor_isolation_witness :
    c2Driver.connect 0 "conn" = .ok 0 ∧
    source_fetch c2Driver 0 ⟨.sqlite, "conn"⟩
        [⟨"q1", "A", []⟩, ⟨"q2", "B", []⟩, ⟨"q3", "C", []⟩] =
      .ok [(⟨"q1", "A", []⟩, .ok []), (⟨"q2", "B", []⟩, .error "boom"),
           (⟨"q3", "C", []⟩, .ok [])] :=
  ⟨rfl,
   (C2_executor_isolation c2Driver 0 ⟨.sqlite, "conn"⟩
     [⟨"q1", "A", []⟩, ⟨"q2", "B", []⟩, ⟨"q3", "C", []⟩] 0 rfl).1⟩

/-- C1 counterexample to the claim as stated: for a single entry whose
fetch failed with `boom`, the report contains no occurrence of the claimed
`Query failed: boom` text (nor of `Query failed` at all), while the
actually emitted text is `Query falied: boom`. -/
theorem C1_counterexample :
    ((present_as [(⟨"select 1", "Q", []⟩, fun _ _ _ => .error "no render", .error "boom")]
        "Project" OutputFormat.plain).map
      (fun d => (strContains d.content "Query failed",
                 strContains d.content "Query falied: boom"))) = .ok (false, true) := by
  rfl

/-! ## Claim C4 — grouped series derivation -/

/-- A successful `get_key_by` is what `keyD` computes. -/
theorem keyD_eq {name : String} {row : List Value} {s : String}
    (h : get_key_by name row = .ok s) : keyD name row = s := by
  unfold keyD
  rw [h]

/-- A successful `get_value_by` is what `valD` computes. -/
theorem valD_eq {name : String} {row : List Value} {v : Rat}
    (h : get_value_by name row = .ok v) : valD name row = v := by
  unfold valD
  rw [h]

/-- When every row's key decodes, the source's `contains`/`push` loop
computes the pure fold over the decoded keys. -/
theorem collectKeys_eq_foldl (name : String) :
    ∀ (data : List (List Value)) (acc : List String),
    (∀ row ∈ data, (get_key_by name row).isOk = true) →
    collectKeys name acc data =
      .ok (data.foldl (fun a r => if keyD name r ∈ a then a else a ++ [keyD name r]) acc) := by
  intro data
  induction data with
  | nil => intro acc _; rfl
  | cons row rest ih =>
    intro acc h
    have hrow := h row (List.mem_cons_self row rest)
    cases hget : get_key_by name row with
    | error e => rw [hget] at hrow; simp [Except.isOk, Except.toBool] at hrow
    | ok v =>
      unfold collectKeys
      rw [hget]
      simp only [List.foldl_cons, keyD_eq hget]
      exact ih _ (fun r hr => h r (List.mem_cons_of_mem row hr))

/-- The key loop computes exactly the claim's distinct-first-occurrence
list of decoded keys. -/
theorem collectKeys_eq_distinctFirstOcc (name : String) (data : List (List Value))
    (h : ∀ row ∈ data, (get_key_by name row).isOk = true) :
    collectKeys name [] data = .ok (distinctFirstOcc (data.map (keyD name))) := by
  rw [collectKeys_eq_foldl name data [] h]
  unfold distinctFirstOcc
  rw [List.foldl_map]

/-- Pairing each key with a constant is zipping with the constant list. -/
theorem map_pair_eq_zip : ∀ ks : List String,
    ks.map (fun k => (k, (0 : Rat))) = ks.zip (ks.map (fun _ => (0 : Rat)))
  | [] => rfl
  | k :: ks => by
    simp only [List.map_cons, List.zip_cons_cons]
    rw [map_pair_eq_zip ks]

/-- Searching the pair list by key is searching the key list. -/
theorem firstIdx_zip (key : String) :
    ∀ (ks : List String) (vs : List Rat), vs.length = ks.length →
    firstIdx (fun p => p.1 = key) (ks.zip vs) = firstIdx (fun k => k = key) ks := by
  intro ks
  induction ks with
  | nil => intro vs _; cases vs <;> rfl
  | cons k ks ih =>
    intro vs hlen
    cases vs with
    | nil => simp at hlen
    | cons v vs =>
      simp only [List.length_cons, Nat.succ.injEq] at hlen
      by_cases hk : k = key
      · simp [firstIdx, hk]
      · simp only [firstIdx, List.zip_cons_cons, hk, decide_False]
        exact congrArg (Option.map (fun i => i + 1)) (ih vs hlen)

/-- Overwriting the pair found by key is overwriting the value slot. -/
theorem zip_set_fst (v : Rat) :
    ∀ (ks : List String) (vs : List Rat) (i : Nat) (key : String),
    firstIdx (fun k => k = key) ks = some i →
    (ks.zip vs).set i (key, v) = ks.zip (vs.set i v) := by
  intro ks
  induction ks with
  | nil => intro vs i key h; cases h
  | cons k ks ih =>
    intro vs i key h
    cases vs with
    | nil => simp
    | cons v' vs =>
      by_cases hk : k = key
      · simp only [firstIdx, hk, decide_True, Option.some.injEq] at h
        subst hk
        cases h
        rfl
      · simp only [firstIdx, hk, decide_False, Option.map_eq_some'] at h
        obtain ⟨j, hj, hi⟩ := h
        subst hi
        simp only [List.zip_cons_cons, List.set_cons_succ]
        rw [ih vs j key hj]

/-- `specStep` preserves the vector's length. -/
theorem specStep_length (sb : ChartSeriesBy) (kb : String) (keys : List String)
    (sname : String) (vec : List Rat) (row : List Value) :
    (specStep sb kb keys sname vec row).length = vec.length := by
  unfold specStep
  split
  · split <;> simp [List.length_set]
  · rfl

/-- Folding `specStep` preserves the vector's length. -/
theorem foldl_specStep_length (sb : ChartSeriesBy) (kb : String) (keys : List String)
    (sname : String) :
    ∀ (data : List (List Value)) (vec : List Rat),
    (List.foldl (specStep sb kb keys sname) vec data).length = vec.length := by
  intro data
  induction data with
  | nil => intro vec; rfl
  | cons row rest ih =>
    intro vec
    simp only [List.foldl_cons]
    rw [ih (specStep sb kb keys sname vec row), specStep_length]

/-- The source's per-series overwrite loop over `(key, value)` pairs is
the claim's vector fold, carried through the zip with `keys`. -/
theorem overwritePairs_zip (sb : ChartSeriesBy) (kb serie : String) (keys : List String) :
    ∀ (data : List (List Value)) (vec : List Rat), vec.length = keys.length →
    (∀ row ∈ data, (get_key_by sb.key row).isOk = true ∧
      (get_key_by kb row).isOk = true ∧ (get_value_by sb.values row).isOk = true) →
    overwritePairs sb kb serie data (keys.zip vec) =
      .ok (keys.zip (List.foldl (specStep sb kb keys serie) vec data)) := by
  intro data
  induction data with
  | nil => intro vec _ _; rfl
  | cons row rest ih =>
    intro vec hlen h
    obtain ⟨h1, h2, h3⟩ := h row (List.mem_cons_self row rest)
    have htail : ∀ r ∈ rest, (get_key_by sb.key r).isOk = true ∧
        (get_key_by kb r).isOk = true ∧ (get_value_by sb.values r).isOk = true :=
      fun r hr => h r (List.mem_cons_of_mem row hr)
    cases hsk : get_key_by sb.key row with
    | error e => rw [hsk] at h1; simp [Except.isOk, Except.toBool] at h1
    | ok serieKey =>
      unfold overwritePairs
      rw [hsk]
      simp only [List.foldl_cons]
      by_cases hser : serieKey = serie
      · rw [if_pos hser]
        cases hv : get_value_by sb.values row with
        | error e => rw [hv] at h3; simp [Except.isOk, Except.toBool] at h3
        | ok value =>
          cases hkk : get_key_by kb row with
          | error e => rw [hkk] at h2; simp [Except.isOk, Except.toBool] at h2
          | ok key =>
            simp only
            rw [firstIdx_zip key keys vec hlen]
            have hstep : specStep sb kb keys serie vec row =
                match firstIdx (fun k => k = key) keys with
                | some i => vec.set i value
                | none => vec := by
              unfold specStep
              rw [keyD_eq hsk, if_pos hser, keyD_eq hkk, valD_eq hv]
            cases hidx : firstIdx (fun k => k = key) keys with
            | some i =>
              simp only
              rw [zip_set_fst value keys vec i key hidx]
              rw [hstep, hidx]
              exact ih (vec.set i value) (by rw [List.length_set]; exact hlen) htail
            | none =>
              simp only
              rw [hstep, hidx]
              exact ih vec hlen htail
      · rw [if_neg hser]
        have hstep : specStep sb kb keys serie vec row = vec := by
          unfold specStep
          rw [keyD_eq hsk, if_neg hser]
        rw [hstep]
        exact ih vec hlen htail

/-- Under decodable rows, the grouped loop produces one series per group
name, holding the claim's value vector. -/
theorem groupedSeries_eq (sb : ChartSeriesBy) (kb : String) (keys : List String)
    (data : List (List Value))
    (h : ∀ row ∈ data, (get_key_by sb.key row).isOk = true ∧
      (get_key_by kb row).isOk = true ∧ (get_value_by sb.values row).isOk = true) :
    ∀ ds : List String, groupedSeries sb kb keys data ds =
      .ok (ds.map (fun n => ⟨n, specVector sb kb keys n data⟩)) := by
  intro ds
  induction ds with
  | nil => rfl
  | cons serie rest ih =>
    unfold groupedSeries
    rw [map_pair_eq_zip keys,
      overwritePairs_zip sb kb serie keys data (keys.map (fun _ => (0 : Rat)))
        (by simp) h]
    simp only [ih]
    have hlen : (List.foldl (specStep sb kb keys serie) (keys.map (fun _ => (0 : Rat))) data).length ≤
        keys.length := by
      rw [foldl_specStep_length]
      simp
    rw [List.map_snd_zip _ _ hlen]
    rfl

/-- C4: in grouped mode (`series_by` and `keys_by` set, `series` absent),
whenever every row's series key, axis key and value decode, the series
list is the distinct decoded `series_by.key` values in first-occurrence
order, each carrying a vector aligned one-to-one with `keys` that
defaults to `0.0` and is overwritten at the position of each matching
row's `keys_by` value (rows whose key is absent from `keys` are silently
ignored — `specStep` drops them); and the keys list computed by
`prepare_keys` is the distinct decoded `keys_by` values in
first-occurrence order. -/
theorem C4_grouped_series (c : ChartComponent) (q : Query) (keys : List String)
    (data : List (List Value)) (sb : ChartSeriesBy) (kb : String)
    (hs : c.series = none) (hsb : c.series_by = some sb) (hkb : c.keys_by = some kb)
    (h : ∀ row ∈ data, (get_key_by sb.key row).isOk = true ∧
      (get_key_by kb row).isOk = true ∧ (get_value_by sb.values row).isOk = true) :
    c.prepare_series q keys data = .ok (specGrouped sb kb keys data) ∧
    c.prepare_keys q data = .ok (distinctFirstOcc (data.map (keyD kb))) := by
  constructor
  · unfold ChartComponent.prepare_series
    rw [if_neg (fun hc => by rw [hsb] at hc; cases hc.2), hs, hsb, hkb]
    simp only [explicitPart, groupedPart]
    rw [collectKeys_eq_distinctFirstOcc sb.key data (fun row hr => (h row hr).1)]
    simp only
    rw [groupedSeries_eq sb kb keys data h]
    simp only [List.nil_append]
    rfl
  · unfold ChartComponent.prepare_keys
    rw [if_neg (fun hc => by have h1 := hc.1; rw [hkb] at h1; cases h1), hkb]
    exact collectKeys_eq_distinctFirstOcc kb data (fun row hr => (h row hr).2.1)

/-- Witness for C4: the two-user example from the sources' tests — rows
john.abc/30 and jane.abc/25 grouped and keyed by `name` with values from
`age` give series `john.abc ↦ [30, 0]` and `jane.abc ↦ [0, 25]`. -/
theorem C4_grouped_series_witness :
    (ChartComponent.mk .bar (some "name") (some ⟨"name", "age"⟩) none).prepare_series
        ⟨"select * from users", "Title test", [⟨"name", "User name", .string⟩, ⟨"age", "Age", .integer⟩]⟩
        ["john.abc", "jane.abc"]
        [[⟨some (.string "john.abc"), ⟨"name", "User name", .string⟩⟩,
          ⟨some (.integer 30), ⟨"age", "Age", .integer⟩⟩],
         [⟨some (.string "jane.abc"), ⟨"name", "User name", .string⟩⟩,
          ⟨some (.integer 25), ⟨"age", "Age", .integer⟩⟩]] =
      .ok [⟨"john.abc", [30, 0]⟩, ⟨"jane.abc", [0, 25]⟩] ∧
    (ChartComponent.mk .bar (some "name") (some ⟨"name", "age"⟩) none).prepare_keys
        ⟨"select * from users", "Title test", [⟨"name", "User name", .string⟩, ⟨"age", "Age", .integer⟩]⟩
        [[⟨some (.string "john.abc"), ⟨"name", "User name", .string⟩⟩,
          ⟨some (.integer 30), ⟨"age", "Age", .integer⟩⟩],
         [⟨some (.string "jane.abc"), ⟨"name", "User name", .string⟩⟩,
          ⟨some (.integer 25), ⟨"age", "Age", .integer⟩⟩]] =
      .ok ["john.abc", "jane.abc"] := by
  have hh := C4_grouped_series
    (ChartComponent.mk .bar (some "name") (some ⟨"name", "age"⟩) none)
    ⟨"select * from users", "Title test", [⟨"name", "User name", .string⟩, ⟨"age", "Age", .integer⟩]⟩
    ["john.abc", "jane.abc"]
    [[⟨some (.string "john.abc"), ⟨"name", "User name", .string⟩⟩,
      ⟨some (.integer 30), ⟨"age", "Age", .integer⟩⟩],
     [⟨some (.string "jane.abc"), ⟨"name", "User name", .string⟩⟩,
      ⟨some (.integer 25), ⟨"age", "Age", .integer⟩⟩]]
    ⟨"name", "age"⟩ "name" rfl rfl rfl (by decide)
  exact ⟨hh.1, hh.2⟩

/-! ## Driver pointwise lemmas -/

/-- A successful sqlite row-loop decodes each reported raw row in place. -/
theorem sqlite_decode_rows_get {cols : List String} {fields : List Field} :
    ∀ {rows : List (List SqliteRaw)} {out : List (List Value)},
    sqlite_decode_rows cols fields rows = .ok out →
    ∀ i raw, rows.get? i = some raw →
    ∃ orow, out.get? i = some orow ∧ sqlite_decode_row cols raw fields 0 = .ok orow := by
  intro rows
  induction rows with
  | nil => intro out _ i raw hr; cases hr
  | cons r rest ih =>
    intro out h i raw hr
    unfold sqlite_decode_rows at h
    cases hrow : sqlite_decode_row cols r fields 0 with
    | error e => rw [hrow] at h; cases h
    | ok row =>
      rw [hrow] at h
      cases hrest : sqlite_decode_rows cols fields rest with
      | error e => rw [hrest] at h; cases h
      | ok rows' =>
        rw [hrest] at h
        cases h
        cases i with
        | zero => cases hr; exact ⟨row, rfl, hrow⟩
        | succ i => exact ih hrest i raw hr

/-- A successful sqlite cell loop decodes field `j` at position `k + j`. -/
theorem sqlite_decode_row_get {cols : List String} {raw : List SqliteRaw} :
    ∀ {fields : List Field} {k : Nat} {vs : List Value},
    sqlite_decode_row cols raw fields k = .ok vs →
    ∀ j f, fields.get? j = some f →
    ∃ v, vs.get? j = some v ∧ sqlite_decode_cell cols raw f (k + j) = .ok v := by
  intro fields
  induction fields with
  | nil => intro k vs _ j f hf; cases hf
  | cons f0 fs ih =>
    intro k vs h j f hf
    unfold sqlite_decode_row at h
    cases hcell : sqlite_decode_cell cols raw f0 k with
    | error e => rw [hcell] at h; cases h
    | ok v0 =>
      rw [hcell] at h
      cases hrest : sqlite_decode_row cols raw fs (k + 1) with
      | error e => rw [hrest] at h; cases h
      | ok vs' =>
        rw [hrest] at h
        cases h
        cases j with
        | zero => cases hf; exact ⟨v0, rfl, by simpa using hcell⟩
        | succ j =>
          obtain ⟨v, hv, hc⟩ := ih hrest j f hf
          exact ⟨v, hv, by rw [Nat.add_succ, ← Nat.succ_add]; exact hc⟩

/-- Any NULL sqlite cell decodes to an absent inner value, for every
field kind. -/
theorem sqlite_decode_cell_null {cols : List String} {raw : List SqliteRaw}
    {f : Field} {k ci : Nat}
    (hci : cols.findIdx? (fun c => c = f.field) = some ci)
    (hnull : raw.getD ci SqliteRaw.null = SqliteRaw.null) :
    sqlite_decode_cell cols raw f k = .ok ⟨none, f⟩ := by
  obtain ⟨ff, ft, fk⟩ := f
  have hnull' : raw[ci]?.getD SqliteRaw.null = SqliteRaw.null := by
    simpa [List.getD] using hnull
  unfold sqlite_decode_cell
  rw [hci]
  cases fk <;>
    simp [hnull', sqlite_read_int, sqlite_read_text, sqlite_read_float]

/-- A missing column makes the sqlite cell read fail with the crate's
out-of-range message wrapped by `efmt` (`row` interpolates the field
position `k`). -/
theorem sqlite_decode_cell_missing {cols : List String} {raw : List SqliteRaw}
    {f : Field} {k : Nat}
    (hci : cols.findIdx? (fun c => c = f.field) = none) :
    sqlite_decode_cell cols raw f k =
      .error ("Read column " ++ f.field ++ " row " ++ toString k ++ " failed: " ++
        ("the index is out of range (" ++ f.field ++ ")")) := by
  unfold sqlite_decode_cell
  rw [hci]

/-- If the first `pre.length` cells decode and the next field's cell
fails, the sqlite row loop fails with that cell's error. -/
theorem sqlite_decode_row_append_err {cols : List String} {raw : List SqliteRaw}
    {f : Field} {post : List Field} {e : String} :
    ∀ (pre : List Field) (k : Nat),
    (∀ j f', pre.get? j = some f' → (sqlite_decode_cell cols raw f' (k + j)).isOk = true) →
    sqlite_decode_cell cols raw f (k + pre.length) = .error e →
    sqlite_decode_row cols raw (pre ++ f :: post) k = .error e := by
  intro pre
  induction pre with
  | nil =>
    intro k _ herr
    show sqlite_decode_row cols raw (f :: post) k = .error e
    unfold sqlite_decode_row
    rw [show k + List.length [] = k from rfl] at herr
    rw [herr]
  | cons p pre ih =>
    intro k hok herr
    have hp := hok 0 p rfl
    cases hcell : sqlite_decode_cell cols raw p k with
    | error e' =>
      rw [show k + 0 = k from rfl] at hp
      rw [hcell] at hp
      simp [Except.isOk, Except.toBool] at hp
    | ok v =>
      show sqlite_decode_row cols raw (p :: (pre ++ f :: post)) k = .error e
      unfold sqlite_decode_row
      rw [hcell]
      rw [ih (k + 1) (fun j f' hf' => by
          have := hok (j + 1) f' (by simpa using hf')
          rwa [Nat.add_succ, ← Nat.succ_add] at this)
        (by rwa [Nat.succ_add, ← Nat.add_succ])]

/-- A successful postgres column resolution resolves field `j` to its
first name match among the statement's columns. -/
theorem pg_resolve_get {stmt : PgStmt} :
    ∀ {fields : List Field} {cs : List (Field × Nat × PgColumn)},
    pg_resolve stmt fields = .ok cs →
    ∀ j f, fields.get? j = some f →
    ∃ idx, stmt.columns.findIdx? (fun c => c.name = f.field) = some idx ∧
      cs.get? j = some (f, idx, stmt.columns.getD idx ⟨"", .other ""⟩) := by
  intro fields
  induction fields with
  | nil => intro cs _ j f hf; cases hf
  | cons f0 fs ih =>
    intro cs h j f hf
    unfold pg_resolve at h
    cases hidx : stmt.columns.findIdx? (fun c => c.name = f0.field) with
    | none => rw [hidx] at h; cases h
    | some idx =>
      rw [hidx] at h
      cases hrest : pg_resolve stmt fs with
      | error e => rw [hrest] at h; cases h
      | ok cs' =>
        rw [hrest] at h
        cases h
        cases j with
        | zero => cases hf; exact ⟨idx, hidx, rfl⟩
        | succ j => exact ih hrest j f hf

/-- If every field before `f` resolves and `f`'s name is absent, the
postgres resolution loop fails with `Column <name> not found`. -/
theorem pg_resolve_missing {stmt : PgStmt} {f : Field} {post : List Field} :
    ∀ pre : List Field,
    (∀ f' ∈ pre, (stmt.columns.findIdx? (fun c => c.name = f'.field)).isSome = true) →
    stmt.columns.findIdx? (fun c => c.name = f.field) = none →
    pg_resolve stmt (pre ++ f :: post) = .error ("Column " ++ f.field ++ " not found") := by
  intro pre
  induction pre with
  | nil =>
    intro _ hmiss
    show pg_resolve stmt (f :: post) = _
    unfold pg_resolve
    rw [hmiss]
  | cons p pre ih =>
    intro hok hmiss
    have hp := hok p (List.mem_cons_self p pre)
    cases hidx : stmt.columns.findIdx? (fun c => c.name = p.field) with
    | none => rw [hidx] at hp; cases hp
    | some idx =>
      show pg_resolve stmt (p :: (pre ++ f :: post)) = _
      unfold pg_resolve
      rw [hidx, ih (fun f' hf' => hok f' (List.mem_cons_of_mem p hf')) hmiss]

/-- A successful postgres row loop decodes each raw row in place. -/
theorem pg_decode_rows_get {columns : List (Field × Nat × PgColumn)} :
    ∀ {qrows : List (List PgRaw)} {out : List (List Value)},
    pg_decode_rows columns qrows = .ok out →
    ∀ i raw, qrows.get? i = some raw →
    ∃ orow, out.get? i = some orow ∧ pg_decode_row raw columns 0 = .ok orow := by
  intro qrows
  induction qrows with
  | nil => intro out _ i raw hr; cases hr
  | cons r rest ih =>
    intro out h i raw hr
    unfold pg_decode_rows at h
    cases hrow : pg_decode_row r columns 0 with
    | error e => rw [hrow] at h; cases h
    | ok row =>
      rw [hrow] at h
      cases hrest : pg_decode_rows columns rest with
      | error e => rw [hrest] at h; cases h
      | ok rows' =>
        rw [hrest] at h
        cases h
        cases i with
        | zero => cases hr; exact ⟨row, rfl, hrow⟩
        | succ i => exact ih hrest i raw hr

/-- A successful postgres cell loop decodes resolved column `j` from the
raw cell at its resolved index. -/
theorem pg_decode_row_get {raw : List PgRaw} :
    ∀ {columns : List (Field × Nat × PgColumn)} {k : Nat} {vs : List Value},
    pg_decode_row raw columns k = .ok vs →
    ∀ j col idx rcol, columns.get? j = some (col, idx, rcol) →
    ∃ inner, pg_decode_cell col rcol (raw.getD idx PgRaw.null) = .ok inner ∧
      vs.get? j = some ⟨inner, col⟩ := by
  intro columns
  induction columns with
  | nil => intro k vs _ j col idx rcol hc; cases hc
  | cons c0 cs ih =>
    intro k vs h j col idx rcol hc
    obtain ⟨col0, idx0, rcol0⟩ := c0
    unfold pg_decode_row at h
    cases hcell : pg_decode_cell col0 rcol0 (raw.getD idx0 PgRaw.null) with
    | error e => rw [hcell] at h; simp [Except.mapError] at h
    | ok inner0 =>
      rw [hcell] at h
      simp only [Except.mapError] at h
      cases hrest : pg_decode_row raw cs (k + 1) with
      | error e => rw [hrest] at h; cases h
      | ok vs' =>
        rw [hrest] at h
        cases h
        cases j with
        | zero => cases hc; exact ⟨inner0, hcell, rfl⟩
        | succ j => exact ih hrest j col idx rcol hc

/-- Any NULL postgres cell decodes to an absent inner value, for every
field kind whose column type the driver accepts. -/
theorem pg_decode_cell_null {f : Field} {rcol : PgColumn}
    (hacc : pgAccepts f.kind rcol.type_ = true) :
    pg_decode_cell f rcol PgRaw.null = .ok none := by
  obtain ⟨ff, ft, fk⟩ := f
  obtain ⟨cn, ct⟩ := rcol
  cases fk <;> cases ct <;> first
    | rfl
    | simp [pgAccepts] at hacc

/-! ## Claim C5 — SQL NULL decodes to an absent inner value -/

/-- C5: for both backend drivers and every FieldType, a fetched row whose
resolved raw cell holds SQL NULL yields a `Value` with `inner = none` for
that cell (for postgres, for every column type the driver's dispatch
accepts), never a type-specific default. -/
theorem C5_null_yields_none :
    (∀ (conn : SqliteConn) (q : Query) (stmt : SqliteStmt) (out : List (List Value))
      (i j ci : Nat) (raw : List SqliteRaw) (f : Field),
      conn.prepare q.sql = .ok stmt →
      sqlite_fetch (some conn) q = .ok out →
      stmt.rows.get? i = some raw →
      q.fields.get? j = some f →
      stmt.cols.findIdx? (fun c => c = f.field) = some ci →
      raw.getD ci SqliteRaw.null = SqliteRaw.null →
      ∃ row, out.get? i = some row ∧ row.get? j = some ⟨none, f⟩) ∧
    (∀ (conn : PgConn) (q : Query) (stmt : PgStmt) (qrows : List (List PgRaw))
      (out : List (List Value)) (i j idx : Nat) (raw : List PgRaw) (f : Field),
      conn.prepare q.sql = .ok stmt →
      conn.runQuery stmt = .ok qrows →
      pg_fetch (some conn) q = .ok out →
      qrows.get? i = some raw →
      q.fields.get? j = some f →
      stmt.columns.findIdx? (fun c => c.name = f.field) = some idx →
      raw.getD idx PgRaw.null = PgRaw.null →
      pgAccepts f.kind (stmt.columns.getD idx ⟨"", .other ""⟩).type_ = true →
      ∃ row, out.get? i = some row ∧ row.get? j = some ⟨none, f⟩) := by
  constructor
  · intro conn q stmt out i j ci raw f hprep hfetch hraw hf hci hnull
    unfold sqlite_fetch at hfetch
    simp only at hfetch
    rw [hprep] at hfetch
    simp only at hfetch
    obtain ⟨orow, ho, hrow⟩ := sqlite_decode_rows_get hfetch i raw hraw
    obtain ⟨v, hv, hcell⟩ := sqlite_decode_row_get hrow j f hf
    rw [Nat.zero_add] at hcell
    rw [sqlite_decode_cell_null hci hnull] at hcell
    cases hcell
    exact ⟨orow, ho, hv⟩
  · intro conn q stmt qrows out i j idx raw f hprep hrun hfetch hraw hf hidx hnull hacc
    unfold pg_fetch at hfetch
    simp only at hfetch
    rw [hprep] at hfetch
    simp only at hfetch
    rw [hrun] at hfetch
    simp only at hfetch
    cases hres : pg_resolve stmt q.fields with
    | error e => rw [hres] at hfetch; cases hfetch
    | ok cs =>
      rw [hres] at hfetch
      simp only at hfetch
      obtain ⟨idx', hidx', hcs⟩ := pg_resolve_get hres j f hf
      rw [hidx] at hidx'
      cases hidx'
      obtain ⟨orow, ho, hrow⟩ := pg_decode_rows_get hfetch i raw hraw
      obtain ⟨inner, hcell, hv⟩ := pg_decode_row_get hrow j f idx _ hcs
      rw [hnull, pg_decode_cell_null hacc] at hcell
      cases hcell
      exact ⟨orow, ho, hv⟩

/-- Witness for C5: a single NULL `a` cell fetched as a String field by
each driver. -/
theorem C5_null_yields_none_witness :
    sqlite_fetch (some sqNullConn) sqNullQuery =
      .ok [[⟨none, ⟨"a", "a", .string⟩⟩]] ∧
    pg_fetch (some pgNullConn) pgNullQuery =
      .ok [[⟨none, ⟨"a", "a", .string⟩⟩]] ∧
    (∃ row, ([[(⟨none, ⟨"a", "a", .string⟩⟩ : Value)]]).get? 0 = some row ∧
      row.get? 0 = some ⟨none, ⟨"a", "a", .string⟩⟩) ∧
    (∃ row, ([[(⟨none, ⟨"a", "a", .string⟩⟩ : Value)]]).get? 0 = some row ∧
      row.get? 0 = some ⟨none, ⟨"a", "a", .string⟩⟩) := by
  refine ⟨rfl, rfl, ?_, ?_⟩
  · exact C5_null_yields_none.1 sqNullConn sqNullQuery
      ⟨["a"], [[.null]]⟩ [[⟨none, ⟨"a", "a", .string⟩⟩]] 0 0 0 [.null] ⟨"a", "a", .string⟩
      rfl rfl rfl rfl rfl rfl
  · exact C5_null_yields_none.2 pgNullConn pgNullQuery
      ⟨[⟨"a", .varchar⟩]⟩ [[.null]] [[⟨none, ⟨"a", "a", .string⟩⟩]] 0 0 0 [.null]
      ⟨"a", "a", .string⟩ rfl rfl rfl rfl rfl rfl rfl rfl

/-! ## Claim C6 — missing columns -/

/-- C6 counterexample to the claim as stated: the sqlite driver does not
produce `Column g not found` for a query naming the absent column `g`; it
fails with the crate's read error (wrapped per row and field position)
which does not contain the claimed text. -/
theorem C6_counterexample :
    sqlite_fetch (some sqMissingColConn) sqMissingColQuery =
      .error "Read column g row 1 failed: the index is out of range (g)" ∧
    strContains "Read column g row 1 failed: the index is out of range (g)"
      "Column g not found" = false := by
  exact ⟨rfl, rfl⟩

/-- C6 (amended): the postgres driver fails with exactly
`Column <name> not found` for the first field whose name is absent from
the statement's reported columns (before decoding any row); the sqlite
driver instead reports a missing column per row through the read error
`Read column <name> row <k> failed: the index is out of range (<name>)`
(`k` being the field's position, and no error at all when the result has
zero rows); either failure aborts only that query's fetch — the executor
still returns one slot per query in order. -/
theorem C6_column_not_found :
    (∀ (conn : PgConn) (q : Query) (stmt : PgStmt) (qrows : List (List PgRaw))
      (pre post : List Field) (f : Field),
      conn.prepare q.sql = .ok stmt →
      conn.runQuery stmt = .ok qrows →
      q.fields = pre ++ f :: post →
      (∀ f' ∈ pre, (stmt.columns.findIdx? (fun c => c.name = f'.field)).isSome = true) →
      stmt.columns.findIdx? (fun c => c.name = f.field) = none →
      pg_fetch (some conn) q = .error ("Column " ++ f.field ++ " not found")) ∧
    (∀ (conn : SqliteConn) (q : Query) (stmt : SqliteStmt),
      conn.prepare q.sql = .ok stmt → stmt.rows = [] →
      sqlite_fetch (some conn) q = .ok []) ∧
    (∀ (conn : SqliteConn) (q : Query) (stmt : SqliteStmt) (raw : List SqliteRaw)
      (rest : List (List SqliteRaw)) (pre post : List Field) (f : Field),
      conn.prepare q.sql = .ok stmt →
      stmt.rows = raw :: rest →
      q.fields = pre ++ f :: post →
      (∀ j f', pre.get? j = some f' →
        (sqlite_decode_cell stmt.cols raw f' j).isOk = true) →
      stmt.cols.findIdx? (fun c => c = f.field) = none →
      sqlite_fetch (some conn) q =
        .error ("Read column " ++ f.field ++ " row " ++ toString pre.length ++ " failed: " ++
          ("the index is out of range (" ++ f.field ++ ")"))) ∧
    (∀ (σ : Type) (d : Driver σ) (s : σ) (qs : List Query),
      (runQuerys d s qs).map Prod.fst = qs) := by
  refine ⟨?_, ?_, ?_, fun σ d s qs => runQuerys_map_fst d qs s⟩
  · intro conn q stmt qrows pre post f hprep hrun hfields hok hmiss
    unfold pg_fetch
    simp only
    rw [hprep]
    simp only
    rw [hrun]
    simp only
    rw [hfields, pg_resolve_missing pre hok hmiss]
  · intro conn q stmt hprep hrows
    unfold sqlite_fetch
    simp only
    rw [hprep]
    simp only
    rw [hrows]
    rfl
  · intro conn q stmt raw rest pre post f hprep hrows hfields hok hmiss
    unfold sqlite_fetch
    simp only
    rw [hprep]
    simp only
    rw [hrows, hfields]
    unfold sqlite_decode_rows
    rw [sqlite_decode_row_append_err pre 0
      (fun j f' hf' => by simpa using hok j f' hf')
      (by rw [Nat.zero_add]; exact sqlite_decode_cell_missing hmiss)]

/-- Witness for C6 at the concrete missing-column connections: postgres
reports `Column g not found`, sqlite with zero rows reports success, and
sqlite with one row reports the per-row read error. -/
theorem C6_column_not_found_witness :
    pg_fetch (some pgMissingColConn) pgMissingColQuery = .error "Column g not found" ∧
    sqlite_fetch (some ⟨fun _ => .ok ⟨["a"], []⟩⟩)
      ⟨"select * from test", "Test", [⟨"g", "g", .integer⟩]⟩ = .ok [] ∧
    sqlite_fetch (some sqMissingColConn) sqMissingColQuery =
      .error ("Read column " ++ "g" ++ " row " ++ toString 1 ++ " failed: " ++
        ("the index is out of range (" ++ "g" ++ ")")) ∧
    (runQuerys c2Driver 0 [⟨"q1", "A", []⟩, ⟨"q2", "B", []⟩]).map Prod.fst =
      [⟨"q1", "A", []⟩, ⟨"q2", "B", []⟩] := by
  refine ⟨?_, ?_, ?_, ?_⟩
  · exact C6_column_not_found.1 pgMissingColConn pgMissingColQuery ⟨[⟨"a", .varchar⟩]⟩ []
      [⟨"a", "a", .string⟩] [] ⟨"g", "g", .integer⟩ rfl rfl rfl (by decide) rfl
  · exact C6_column_not_found.2.1 ⟨fun _ => .ok ⟨["a"], []⟩⟩
      ⟨"select * from test", "Test", [⟨"g", "g", .integer⟩]⟩ ⟨["a"], []⟩ rfl rfl
  · exact C6_column_not_found.2.2.1 sqMissingColConn sqMissingColQuery ⟨["a"], [[.null]]⟩
      [.null] [] [⟨"a", "a", .string⟩] [] ⟨"g", "g", .integer⟩ rfl rfl rfl
      (fun j f' hf' => by
        cases j with
        | zero => cases hf'; rfl
        | succ j => exact Option.noConfusion hf')
      rfl
  · exact C6_column_not_found.2.2.2 Nat c2Driver 0 [⟨"q1", "A", []⟩, ⟨"q2", "B", []⟩]

/-! ## Claim C7 — decode error messages -/

/-- C7: evaluation of both drivers at inputs with a per-cell decode
failure.  The postgres failure occurs while decoding row index 0, yet the
message reads `row 1` — the interpolated number is the field's position
in the row (`r.len()`), not the row index, and the message nowhere
contains the actual row index `0`.  The sqlite temporal-parse failure
occurs at row index 1, and its message contains neither the field's name
(`qq`) nor any digit `1` at all — no row index and no field name. -/
theorem C7_decode_error_messages :
    pg_fetch (some pgBadIntConn) pgBadIntQuery =
      .error "Column b row 1 error: Invalid integer type text" ∧
    strContains "Column b row 1 error: Invalid integer type text" "0" = false ∧
    sqlite_fetch (some sqBadTimeConn) sqBadTimeQuery =
      .error "Error on parse the 99x to time: input contains invalid characters" ∧
    strContains "Error on parse the 99x to time: input contains invalid characters"
      "qq" = false ∧
    strContains "Error on parse the 99x to time: input contains invalid characters"
      "1" = false := by
  exact ⟨rfl, rfl, rfl, rfl, rfl⟩

end Lmr
